import Mathlib

/-!
Shallow embedding of the layout core of the `devopsjean/profile` single-page
application (source: `src/App.tsx`).  JavaScript numbers are modelled as exact
rationals (`ℚ`); the transcendental primitives `Math.cos`, `Math.sin`,
`Math.hypot` and the locale-dependent `String.localeCompare` are parameters of
the embedding (`JsMathPrims`), since their values are not rational.  Strings
are modelled as `String` / `List Char` with one `Char` per UTF-16 code unit of
the source data (all content strings are in the basic multilingual plane).
-/

namespace Profile

/-- `clamp` from App.tsx: `Math.max(min, Math.min(max, value))`
(parameters renamed `lo`, `hi` to avoid clashing with Lean's `min`/`max`). -/
def clamp (value lo hi : ℚ) : ℚ := max lo (min hi value)

/-- JavaScript `Math.round` on an exact rational: round half toward +infinity. -/
def jsRound (q : ℚ) : ℤ := ⌊q + 1/2⌋

/-- JavaScript `x || y` on numbers (as used in numeric sort comparators):
returns `x` unless `x` is `0`, in which case `y`. -/
def jsOr (x y : ℚ) : ℚ := if x = 0 then y else x

/-- Insert `x` into an already-sorted accumulator, after every element `a`
with `¬ cmp x a < 0`.  Together with `jsSortWith` this is a stable sort, the
behaviour guaranteed for JavaScript `Array.prototype.sort`. -/
def jsInsertSorted (cmp : α → α → ℚ) (x : α) : List α → List α
  | [] => [x]
  | a :: rest => if cmp x a < 0 then x :: a :: rest else a :: jsInsertSorted cmp x rest

/-- Stable sort by a JavaScript-style numeric comparator
(`cmp a b < 0` means `a` comes before `b`; ties keep input order). -/
def jsSortWith (cmp : α → α → ℚ) (l : List α) : List α :=
  l.foldl (fun acc x => jsInsertSorted cmp x acc) []

/-- The offsets tried by a JavaScript loop of the shape
`for (let distance = 0; distance <= maxShift; distance += step)` that tests
`0` first and then `+distance, -distance` (nearest-first search), in order. -/
def stepOffsets (maxShift step : ℚ) : List ℚ :=
  if maxShift < 0 then []
  else (List.range ((⌊maxShift / step⌋).toNat + 1)).flatMap
    (fun k => if k = 0 then [(0 : ℚ)] else [step * k, -(step * k)])

/-- The candidates visited by `for (let candidate = lo; candidate <= hi; candidate += step)`. -/
def scanYs (lo hi step : ℚ) : List ℚ :=
  if hi < lo then []
  else (List.range ((⌊(hi - lo) / step⌋).toNat + 1)).map (fun k => lo + step * k)

/-! ## `shortenSkillLabel` (App.tsx lines 1434-1437) -/

/-- `shortenSkillLabel(text, max)`: return `text` unchanged when its length is
at most `max`, otherwise the first `max - 1` code units followed by a single
ellipsis character.  (The source's `text.slice(0, max - 1)` coincides with
`List.take (max - 1)` for the positive `max` used at every call site.) -/
def shortenSkillLabel (text : List Char) (maxLen : ℕ) : List Char :=
  if text.length ≤ maxLen then text else text.take (maxLen - 1) ++ ['…']

/-! ## `resolveReadmeUrl` (App.tsx lines 807-817) -/

/-- One character of the case-insensitive character class `[a-z]` of the
scheme-detection regex `/^[a-z]+:/i`. -/
def isAsciiAlpha (c : Char) : Bool :=
  ('a' ≤ c && c ≤ 'z') || ('A' ≤ c && c ≤ 'Z')

/-- After at least one letter has been seen: accept a `':'`, or consume
further letters. -/
def schemeTestAux : List Char → Bool
  | [] => false
  | c :: rest => if c = ':' then true else isAsciiAlpha c && schemeTestAux rest

/-- `/^[a-z]+:/i.test(url)`: one or more ASCII letters followed by `':'`,
anchored at the start of the string. -/
def schemeTest : List Char → Bool
  | [] => false
  | c :: rest => isAsciiAlpha c && schemeTestAux rest

/-- `String.prototype.startsWith` on code-unit lists. -/
def leadsWith : List Char → List Char → Bool
  | [], _ => true
  | _ :: _, [] => false
  | p :: ps, c :: cs => p == c && leadsWith ps cs

/-- `url.replace(/^\.\//, '')`: strip one leading `"./"` when present. -/
def stripLeadingDotSlash (l : List Char) : List Char :=
  if leadsWith ['.', '/'] l then l.drop 2 else l

/-- `resolveReadmeUrl(url, rawBase, blobBase, preferRaw)` from App.tsx:
empty string for a missing/empty url; the url unchanged when it matches
`/^[a-z]+:/i` or starts with `"//"` or `"#"`; otherwise the raw or blob base
concatenated with the url after stripping one leading `"./"` and then all
leading `'/'` characters (`.replace(/^\/+/, '')`). -/
def resolveReadmeUrl (url : Option (List Char)) (rawBase blobBase : List Char)
    (preferRaw : Bool) : List Char :=
  match url with
  | none => []
  | some u =>
    if u = [] then []
    else if schemeTest u || leadsWith ['/', '/'] u || leadsWith ['#'] u then u
    else (if preferRaw then rawBase else blobBase) ++
      ((stripLeadingDotSlash u).dropWhile (fun c => c == '/'))

/-! ## Calendar dates and `quarterPositionFromModel` (App.tsx lines 823-834) -/

/-- A calendar date as JavaScript's `Date` exposes it: `getFullYear`,
zero-based `getMonth` (0..11) and one-based `getDate`. -/
structure JSDate where
  year : ℤ
  month : ℤ
  day : ℤ
deriving DecidableEq

/-- Gregorian leap-year rule (what `new Date(y, 2, 0).getDate() = 29` encodes). -/
def isLeapYear (y : ℤ) : Bool :=
  (y % 4 == 0 && y % 100 != 0) || y % 400 == 0

/-- `new Date(year, month + 1, 0).getDate()`: the number of days of the
zero-based `month` of `year` (months outside 0..11 are never queried on valid
dates; the final `else` arm makes the function total). -/
def daysInMonth (y m : ℤ) : ℤ :=
  if m = 1 then (if isLeapYear y then 29 else 28)
  else if m = 3 ∨ m = 5 ∨ m = 8 ∨ m = 10 then 30
  else 31

/-- A structurally valid calendar date. -/
def validDate (d : JSDate) : Prop :=
  0 ≤ d.month ∧ d.month ≤ 11 ∧ 1 ≤ d.day ∧ d.day ≤ daysInMonth d.year d.month

instance (d : JSDate) : Decidable (validDate d) := by
  unfold validDate; infer_instance

/-- Calendar order on dates (lexicographic year, month, day). -/
def dateLE (a b : JSDate) : Prop :=
  a.year < b.year ∨
    (a.year = b.year ∧ (a.month < b.month ∨ (a.month = b.month ∧ a.day ≤ b.day)))

instance (a b : JSDate) : Decidable (dateLE a b) := by
  unfold dateLE; infer_instance

/-- The calendar successor of a date: what `date.setDate(date.getDate() + 1)`
produces on a valid date (JavaScript normalises the rolled-over day). -/
def nextCalendarDay (d : JSDate) : JSDate :=
  if d.day < daysInMonth d.year d.month then ⟨d.year, d.month, d.day + 1⟩
  else if d.month < 11 then ⟨d.year, d.month + 1, 1⟩
  else ⟨d.year + 1, 0, 1⟩

/-- `addDays(date, days)` from App.tsx for a nonnegative whole number of days:
on valid dates JavaScript's `setDate(getDate() + days)` normalisation agrees
with iterating the calendar successor. -/
def addDays (d : JSDate) (days : ℕ) : JSDate :=
  match days with
  | 0 => d
  | n + 1 => nextCalendarDay (addDays d n)

/-- `quarterPositionFromModel(date, minYear)`:
`((year - minYear) * 12 + month + (day - 1) / daysInMonth) / 3`. -/
def quarterPositionFromModel (d : JSDate) (minYear : ℤ) : ℚ :=
  let monthsFromMin : ℚ := ((d.year - minYear : ℤ) : ℚ) * 12 + (d.month : ℚ)
  let dim : ℚ := ((daysInMonth d.year d.month : ℤ) : ℚ)
  let monthProgress : ℚ := ((d.day : ℚ) - 1) / dim
  (monthsFromMin + monthProgress) / 3

/-- `totalQuarters` as the axis model computes it (App.tsx line 324). -/
def axisTotalQuarters (minYear maxYear : ℤ) : ℤ :=
  (maxYear - minYear + 1) * 4

/-! ## JavaScript number semantics for the axis-model edge case (C3) -/

/-- A JavaScript number as far as the axis-model computation distinguishes
them: `NaN`, the two infinities, or a finite value. -/
inductive JSNum where
  | nan : JSNum
  | posInf : JSNum
  | negInf : JSNum
  | num : ℚ → JSNum
deriving DecidableEq

/-- `Math.min` of two values (`NaN` absorbs). -/
def jsMin2 : JSNum → JSNum → JSNum
  | .nan, _ => .nan
  | _, .nan => .nan
  | .negInf, _ => .negInf
  | _, .negInf => .negInf
  | .posInf, b => b
  | a, .posInf => a
  | .num a, .num b => .num (min a b)

/-- `Math.max` of two values (`NaN` absorbs). -/
def jsMax2 : JSNum → JSNum → JSNum
  | .nan, _ => .nan
  | _, .nan => .nan
  | .posInf, _ => .posInf
  | _, .posInf => .posInf
  | .negInf, b => b
  | a, .negInf => a
  | .num a, .num b => .num (max a b)

/-- `Math.min(...xs)`: `Infinity` for the empty spread. -/
def jsMinList (l : List JSNum) : JSNum := l.foldl jsMin2 .posInf

/-- `Math.max(...xs)`: `-Infinity` for the empty spread. -/
def jsMaxList (l : List JSNum) : JSNum := l.foldl jsMax2 .negInf

/-- IEEE addition on the modelled values. -/
def jsAdd : JSNum → JSNum → JSNum
  | .nan, _ => .nan
  | _, .nan => .nan
  | .posInf, .negInf => .nan
  | .negInf, .posInf => .nan
  | .posInf, _ => .posInf
  | _, .posInf => .posInf
  | .negInf, _ => .negInf
  | _, .negInf => .negInf
  | .num a, .num b => .num (a + b)

/-- IEEE subtraction on the modelled values. -/
def jsSub : JSNum → JSNum → JSNum
  | .nan, _ => .nan
  | _, .nan => .nan
  | .posInf, .posInf => .nan
  | .negInf, .negInf => .nan
  | .posInf, _ => .posInf
  | .negInf, _ => .negInf
  | .num _, .posInf => .negInf
  | .num _, .negInf => .posInf
  | .num a, .num b => .num (a - b)

/-- IEEE multiplication on the modelled values (infinity times zero is `NaN`). -/
def jsMul : JSNum → JSNum → JSNum
  | .nan, _ => .nan
  | _, .nan => .nan
  | .posInf, .posInf => .posInf
  | .posInf, .negInf => .negInf
  | .negInf, .posInf => .negInf
  | .negInf, .negInf => .posInf
  | .posInf, .num b => if b = 0 then .nan else if 0 < b then .posInf else .negInf
  | .negInf, .num b => if b = 0 then .nan else if 0 < b then .negInf else .posInf
  | .num a, .posInf => if a = 0 then .nan else if 0 < a then .posInf else .negInf
  | .num a, .negInf => if a = 0 then .nan else if 0 < a then .negInf else .posInf
  | .num a, .num b => .num (a * b)

/-- `new Date(t).getFullYear()`: `NaN` for an invalid date (non-finite time
value, or a finite one beyond the ECMAScript time range ±8.64e15 ms);
otherwise the calendar year of the instant.  The year-of-instant function is a
parameter: the claims below never depend on its values. -/
def dateGetFullYear (yearOfMs : ℚ → ℤ) : JSNum → JSNum
  | .num t => if |t| ≤ 8640000000000000 then .num ((yearOfMs t : ℤ) : ℚ) else .nan
  | _ => .nan

/-- A timeline record reduced to the two parsed instants the axis model reads
(`new Date(item.start).getTime()`, `new Date(item.end).getTime()`). -/
structure TimelineItemMs where
  startMs : ℚ
  endMs : ℚ

/-- The temporal axis model fields. -/
structure TimelineAxisModel where
  minYear : JSNum
  maxYear : JSNum
  totalQuarters : JSNum

/-- The `baseRange`/`model` computation of `ExperienceTimelineBoard`
(App.tsx lines 314-325), with JavaScript number semantics:
`minDate = new Date(Math.min(...starts))`, `maxDate = new Date(Math.max(...ends))`,
`minYear = Math.min(minDate.getFullYear(), currentYear) - 20`,
`maxYear = Math.max(maxDate.getFullYear(), currentYear) + 20`,
`totalQuarters = (maxYear - minYear + 1) * 4`. -/
def experienceTimelineModel (yearOfMs : ℚ → ℤ) (currentYear : ℤ)
    (items : List TimelineItemMs) : TimelineAxisModel :=
  let baseMinYear := dateGetFullYear yearOfMs (jsMinList (items.map (fun i => .num i.startMs)))
  let baseMaxYear := dateGetFullYear yearOfMs (jsMaxList (items.map (fun i => .num i.endMs)))
  let minYear := jsSub (jsMin2 baseMinYear (.num (currentYear : ℚ))) (.num 20)
  let maxYear := jsAdd (jsMax2 baseMaxYear (.num (currentYear : ℚ))) (.num 20)
  { minYear := minYear
    maxYear := maxYear
    totalQuarters := jsMul (jsAdd (jsSub maxYear minYear) (.num 1)) (.num 4) }

/-! ## Per-event timeline bar geometry (App.tsx lines 469-488) -/

/-- The geometry the timeline render loop computes for one event. -/
structure TimelineBarGeometry where
  startPos : ℚ
  endPos : ℚ
  rendered : Bool
  rawLeftPx : ℚ
  rawRightPx : ℚ
  leftPx : ℚ
  widthPx : ℚ
  topPx : ℚ
  hasPastOverflow : Bool
  hasFutureOverflow : Bool
  hasViewportOverlap : Bool
  labelLeft : ℚ

/-- The body of the `ordered.map` render loop for one event at row `idx`:
quarter positions of the start date and of the day after the inclusive end
date, clamping against the axis range, the raw/clamped pixel edges, the
overflow flags, the label-visibility test and the label offset. -/
def timelineBarGeometry (startDate endDate : JSDate) (minYear : ℤ)
    (totalQuarters quarterWidth scrollLeft viewportWidth : ℚ) (idx : ℕ) :
    TimelineBarGeometry :=
  let startPos := quarterPositionFromModel startDate minYear
  let endPos := quarterPositionFromModel (addDays endDate 1) minYear
  let clampedStart := max startPos 0
  let clampedEnd := min endPos totalQuarters
  let rendered := !(decide (clampedEnd ≤ 0) || decide (clampedStart ≥ totalQuarters)
    || decide (clampedEnd ≤ clampedStart))
  let rawLeftPx := startPos * quarterWidth + 2
  let rawRightPx := endPos * quarterWidth - 2
  let leftPx := clampedStart * quarterWidth + 2
  let widthPx := max ((clampedEnd - clampedStart) * quarterWidth - 4) 12
  let topPx := (idx : ℚ) * 42 + 8
  let hasPastOverflow := decide (rawLeftPx < scrollLeft + 2)
  let hasFutureOverflow := decide (rawRightPx > scrollLeft + viewportWidth - 2)
  let hasViewportOverlap :=
    decide (rawRightPx > scrollLeft) && decide (rawLeftPx < scrollLeft + viewportWidth)
  let minLabelX := scrollLeft + (if hasPastOverflow then (34 : ℚ) else 10)
  let maxLabelX := max minLabelX (scrollLeft + viewportWidth - 180)
  let naturalLabelX := leftPx + 10
  let labelX := min (max naturalLabelX minLabelX) maxLabelX
  { startPos := startPos
    endPos := endPos
    rendered := rendered
    rawLeftPx := rawLeftPx
    rawRightPx := rawRightPx
    leftPx := leftPx
    widthPx := widthPx
    topPx := topPx
    hasPastOverflow := hasPastOverflow
    hasFutureOverflow := hasFutureOverflow
    hasViewportOverlap := hasViewportOverlap
    labelLeft := max 10 (labelX - leftPx) }

/-! ## Skill-tree data model (App.tsx lines 30-80) -/

/-- `RoadmapStatus`. -/
inductive RoadmapStatus where
  | notStarted : RoadmapStatus
  | studying : RoadmapStatus
  | done : RoadmapStatus
deriving DecidableEq

/-- `RoadmapItem`. -/
structure RoadmapItem where
  id : String
  area : String
  topic : String
  status : RoadmapStatus
  progress : ℚ
  priority : String
  link : String
deriving DecidableEq

/-- One entry of the grouped topic list `buildRoadmapSkillTreeLayout` receives. -/
structure RoadmapGroup where
  area : String
  tasks : List RoadmapItem

/-- The `'upper' | 'root'` zone tag. -/
inductive SkillZone where
  | upper : SkillZone
  | root : SkillZone
deriving DecidableEq

/-- `SkillLeafLayout`. -/
structure SkillLeaf where
  id : String
  clusterId : String
  topic : String
  displayTopic : String
  status : RoadmapStatus
  progress : ℚ
  link : String
  x : ℚ
  y : ℚ
  areaX : ℚ
  areaY : ℚ
  side : ℚ
  color : String
  statusColor : String
  radius : ℚ
  zone : SkillZone
  boxWidth : ℚ
  boxHeight : ℚ
  baseBoxY : ℚ
  boxX : ℚ
  boxY : ℚ
  boxCenterY : ℚ
  boxAnchorX : ℚ
  textX : ℚ
  textAnchor : String
  minY : ℚ
  maxY : ℚ
deriving DecidableEq

/-- `SkillAreaLayout`. -/
structure SkillArea where
  key : String
  area : String
  x : ℚ
  y : ℚ
  color : String
  side : ℚ
  bandTop : ℚ
  bandBottom : ℚ
deriving DecidableEq

/-- A claimed vertical band `{start, end}` (field `end` renamed `stop`). -/
structure QInterval where
  start : ℚ
  stop : ℚ
deriving DecidableEq

/-- An entry of the `occupied` rectangle list of `resolveLeafOverlap`. -/
structure OccBox where
  top : ℚ
  bottom : ℚ
  left : ℚ
  right : ℚ
deriving DecidableEq

/-- An axis-aligned bounding box `{minX, maxX, minY, maxY}`. -/
structure Bounds where
  minX : ℚ
  maxX : ℚ
  minY : ℚ
  maxY : ℚ
deriving DecidableEq

/-- The transcendental / locale-dependent primitives the layout calls.
`cosDeg d` stands for `Math.cos(d * Math.PI / 180)`, `sinDeg` likewise,
`hypot` for `Math.hypot`, and `localeCompare` for
`String.prototype.localeCompare`. -/
structure JsMathPrims where
  cosDeg : ℚ → ℚ
  sinDeg : ℚ → ℚ
  hypot : ℚ → ℚ → ℚ
  localeCompare : String → String → ℚ

/-- Placeholder used for out-of-range list reads (never hit on the indices the
algorithms generate, which are always in range). -/
def defaultLeaf : SkillLeaf :=
  { id := "", clusterId := "", topic := "", displayTopic := "",
    status := .notStarted, progress := 0, link := "", x := 0, y := 0,
    areaX := 0, areaY := 0, side := 1, color := "", statusColor := "",
    radius := 0, zone := .upper, boxWidth := 0, boxHeight := 0, baseBoxY := 0,
    boxX := 0, boxY := 0, boxCenterY := 0, boxAnchorX := 0, textX := 0,
    textAnchor := "start", minY := 0, maxY := 0 }

/-- Placeholder area for out-of-range list reads. -/
def defaultArea : SkillArea :=
  { key := "", area := "", x := 0, y := 0, color := "", side := 1,
    bandTop := 0, bandBottom := 0 }

/-- Placeholder bounds for out-of-range list reads. -/
def defaultBounds : Bounds := ⟨0, 0, 0, 0⟩

/-- `statusColor` record of `buildRoadmapSkillTreeLayout`. -/
def statusColorOf : RoadmapStatus → String
  | .done => "#7be193"
  | .studying => "#f8af4b"
  | .notStarted => "#8892a8"

/-- `areaPalette`. -/
def areaPalette : List String :=
  ["#b14b59", "#8a4e86", "#5f8ab6", "#5f9b7c", "#9f6f47", "#9a5f9f"]

/-! ## Geometry helpers (App.tsx lines 1265-1432) -/

/-- `buildCenteredAngles(centerDeg, spreadDeg, count)`. -/
def buildCenteredAngles (centerDeg spreadDeg : ℚ) (count : ℕ) : List ℚ :=
  if count ≤ 1 then [centerDeg]
  else
    let start := centerDeg - spreadDeg / 2
    let step := spreadDeg / ((count : ℚ) - 1)
    (List.range count).map (fun i => start + (i : ℚ) * step)

/-- `polarPoint(cx, cy, radius, degree)`. -/
def polarPoint (P : JsMathPrims) (cx cy radius degree : ℚ) : ℚ × ℚ :=
  (cx + P.cosDeg degree * radius, cy + P.sinDeg degree * radius)

/-- `distanceToPoint(x1, y1, x2, y2) = Math.hypot(x2 - x1, y2 - y1)`. -/
def distanceToPoint (P : JsMathPrims) (x1 y1 x2 y2 : ℚ) : ℚ :=
  P.hypot (x2 - x1) (y2 - y1)

/-- `getClusterBounds(area, leaves)`. -/
def getClusterBounds (area : SkillArea) (leaves : List SkillLeaf) : Bounds :=
  leaves.foldl (fun b leaf =>
    { minX := min b.minX (min leaf.boxX (leaf.boxAnchorX - leaf.radius - 2))
      maxX := max b.maxX (max (leaf.boxX + leaf.boxWidth) (leaf.boxAnchorX + leaf.radius + 2))
      minY := min b.minY (min leaf.boxY (leaf.boxCenterY - leaf.radius - 2))
      maxY := max b.maxY (max (leaf.boxY + leaf.boxHeight) (leaf.boxCenterY + leaf.radius + 2)) })
    { minX := area.x - 92, maxX := area.x + 92, minY := area.y - 16, maxY := area.y + 16 }

/-- `shiftBounds(bounds, dx, dy)`. -/
def shiftBounds (b : Bounds) (dx dy : ℚ) : Bounds :=
  ⟨b.minX + dx, b.maxX + dx, b.minY + dy, b.maxY + dy⟩

/-- `boxesOverlap(a, b, gap)`. -/
def boxesOverlap (a b : Bounds) (gap : ℚ) : Bool :=
  !(decide (a.maxX + gap < b.minX) || decide (a.minX > b.maxX + gap) ||
    decide (a.maxY + gap < b.minY) || decide (a.minY > b.maxY + gap))

/-- `isCircleIntersectingAabb(cx, cy, radius, box)`. -/
def isCircleIntersectingAabb (cx cy radius : ℚ) (box : Bounds) : Bool :=
  let nearestX := clamp cx box.minX box.maxX
  let nearestY := clamp cy box.minY box.maxY
  let dx := cx - nearestX
  let dy := cy - nearestY
  decide (dx * dx + dy * dy ≤ radius * radius)

/-- `findBandShift(bandTop, bandBottom, occupied, maxShift)`: nearest-first
search in steps of 8 for an offset whose shifted band overlaps no occupied
interval; `0` when the search exhausts. -/
def findBandShift (bandTop bandBottom : ℚ) (occupied : List QInterval)
    (maxShift : ℚ) : ℚ :=
  ((stepOffsets maxShift 8).find? (fun off =>
    !(occupied.any (fun iv =>
      decide (bandBottom + off > iv.start) && decide (bandTop + off < iv.stop))))).getD 0

/-- `isYFreeForNode(y, node, occupied, blockers, gap)`. -/
def isYFreeForNode (y : ℚ) (node : SkillLeaf) (occupied : List OccBox)
    (blockers : List QInterval) (gap : ℚ) : Bool :=
  let bottom := y + node.boxHeight
  let left := node.boxX
  let right := node.boxX + node.boxWidth
  let blockedByArea := blockers.any (fun iv =>
    decide (bottom + gap > iv.start) && decide (y < iv.stop + gap))
  if blockedByArea then false
  else !(occupied.any (fun b =>
    decide (bottom + gap > b.top) && decide (y < b.bottom + gap) &&
    decide (right + gap > b.left) && decide (left < b.right + gap)))

/-- `findNearestAvailableYForNode`: nearest-first clamped search in steps of 6
around `baseBoxY`, then a linear scan of the whole band, then the clamped
original position. -/
def findNearestAvailableYForNode (node : SkillLeaf) (occupied : List OccBox)
    (laneBlockers : List QInterval) (gap maxShift minY maxY : ℚ) : ℚ :=
  match (stepOffsets maxShift 6).find? (fun off =>
      isYFreeForNode (clamp (node.baseBoxY + off) minY maxY) node occupied laneBlockers gap) with
  | some off => clamp (node.baseBoxY + off) minY maxY
  | none =>
    match (scanYs minY maxY 6).find? (fun c =>
        isYFreeForNode c node occupied laneBlockers gap) with
    | some c => c
    | none => clamp node.baseBoxY minY maxY

/-- Append an interval to the lane of `key` in an insertion-ordered map
(JavaScript `Map` get/push/set). -/
def pushAssoc (m : List (String × List QInterval)) (key : String)
    (iv : QInterval) : List (String × List QInterval) :=
  if m.any (fun p => p.1 == key) then
    m.map (fun p => if p.1 == key then (p.1, p.2 ++ [iv]) else p)
  else m ++ [(key, [iv])]

/-- `blockers.get(key) ?? []`. -/
def lookupAssoc (m : List (String × List QInterval)) (key : String) :
    List QInterval :=
  (((m.find? (fun p => p.1 == key)).map (fun p => p.2))).getD []

/-- `buildAreaLaneBlockers(areas)`: one `[y - 30, y + 30]` keep-out interval
per area, keyed by the area key. -/
def buildAreaLaneBlockers (areas : List SkillArea) :
    List (String × List QInterval) :=
  areas.foldl (fun m a => pushAssoc m a.key ⟨a.y - 30, a.y + 30⟩) []

/-- The in-place update `resolveLeafOverlap` performs on one node once its
`candidateY` is found. -/
def updateLeafBox (candidateY : ℚ) (n : SkillLeaf) : SkillLeaf :=
  { n with
    boxY := candidateY
    boxCenterY := candidateY + n.boxHeight / 2
    boxAnchorX := if n.side > 0 then n.boxX else n.boxX + n.boxWidth
    textX := if n.side > 0 then n.boxX + 10 else n.boxX + n.boxWidth - 10 }

/-- `resolveLeafOverlap(nodes, blockers, maxShift)`: process the nodes in
ascending `(baseBoxY, boxX)` order (stable on ties, like `Array.sort`), give
each the nearest free y, and record its box as occupied.  Nodes are updated
in place in the source; here the store is a list indexed like `nodes`. -/
def resolveLeafStep (blockers : List (String × List QInterval)) (maxShift : ℚ)
    (acc : List SkillLeaf × List OccBox) (p : ℕ × SkillLeaf) :
    List SkillLeaf × List OccBox :=
  let laneGap : ℚ := 12
  let node := acc.1.getD p.1 defaultLeaf
  let laneBlockers := lookupAssoc blockers node.clusterId
  let candidateY := findNearestAvailableYForNode node acc.2 laneBlockers laneGap
    maxShift node.minY node.maxY
  let node' := updateLeafBox candidateY node
  (acc.1.set p.1 node',
   acc.2 ++ [⟨node'.boxY, node'.boxY + node'.boxHeight, node'.boxX,
              node'.boxX + node'.boxWidth⟩])

def resolveLeafOverlap (nodes : List SkillLeaf)
    (blockers : List (String × List QInterval)) (maxShift : ℚ) :
    List SkillLeaf :=
  let ordered := jsSortWith
    (fun a b => jsOr (a.2.baseBoxY - b.2.baseBoxY) (a.2.boxX - b.2.boxX)) nodes.enum
  (ordered.foldl (resolveLeafStep blockers maxShift) (nodes, [])).1

/-! ## Cluster compaction (App.tsx lines 1029-1123) -/

/-- The `options` record of `compactClustersTowardCore`. -/
structure CompactOptions where
  width : ℚ
  height : ℚ
  zone : SkillZone
  minRadius : ℚ
  zoneGap : ℚ
  rootKeepout : ℚ
  clusterGap : ℚ
  boundaryPadding : ℚ

/-- Mutable state of a compaction run: the area store, the shared leaf store,
and the cached bounding box of each cluster (cluster `i` owns `areas[i]`). -/
structure CompactState where
  areas : List SkillArea
  leaves : List SkillLeaf
  bounds : List Bounds
deriving DecidableEq

/-- The per-leaf translation applied when a cluster moves. -/
def shiftLeaf (dx dy : ℚ) (leaf : SkillLeaf) : SkillLeaf :=
  { leaf with
    x := leaf.x + dx
    y := leaf.y + dy
    areaX := leaf.areaX + dx
    areaY := leaf.areaY + dy
    baseBoxY := leaf.baseBoxY + dy
    boxX := leaf.boxX + dx
    boxY := leaf.boxY + dy
    boxCenterY := leaf.boxCenterY + dy
    boxAnchorX := leaf.boxAnchorX + dx
    textX := leaf.textX + dx
    minY := leaf.minY + dy
    maxY := leaf.maxY + dy }

/-- Apply `shiftLeaf` to the leaves at the given store indices. -/
def shiftLeafSetStep (dx dy : ℚ) (ls : List SkillLeaf) (i : ℕ) : List SkillLeaf :=
  ls.set i (shiftLeaf dx dy (ls.getD i defaultLeaf))

def shiftLeavesAt (leaves : List SkillLeaf) (idxs : List ℕ) (dx dy : ℚ) :
    List SkillLeaf :=
  idxs.foldl (shiftLeafSetStep dx dy) leaves

/-- The body of the compaction loop for one cluster `c`: skip (state
unchanged, `false`) unless the cluster is farther than `minRadius + 1` from
the root and the capped step toward the root passes the zone, canvas,
root-keep-out and cluster-collision guards; otherwise apply the translation
to the cluster's area, leaves and cached bounds and report `true`. -/
def tryMoveCluster (P : JsMathPrims) (opts : CompactOptions) (root : ℚ × ℚ)
    (leafIdxs : List (List ℕ)) (st : CompactState) (c : ℕ) :
    CompactState × Bool :=
  let area := st.areas.getD c defaultArea
  let vectorX := root.1 - area.x
  let vectorY := root.2 - area.y
  let distance := P.hypot vectorX vectorY
  if distance ≤ opts.minRadius + 1 then (st, false)
  else
    let moveLength := min 30 (distance - opts.minRadius)
    let dx := vectorX / distance * moveLength
    let dy := vectorY / distance * moveLength
    let nextAreaY := area.y + dy
    if opts.zone = .upper ∧ nextAreaY > root.2 - opts.zoneGap then (st, false)
    else if opts.zone = .root ∧ nextAreaY < root.2 + opts.zoneGap then (st, false)
    else
      let nextBounds := shiftBounds (st.bounds.getD c defaultBounds) dx dy
      if nextBounds.minX < opts.boundaryPadding ∨
         nextBounds.maxX > opts.width - opts.boundaryPadding ∨
         nextBounds.minY < opts.boundaryPadding ∨
         nextBounds.maxY > opts.height - opts.boundaryPadding then (st, false)
      else if isCircleIntersectingAabb root.1 root.2 opts.rootKeepout nextBounds then
        (st, false)
      else if (List.range st.areas.length).any (fun other =>
          other != c && boxesOverlap nextBounds (st.bounds.getD other defaultBounds)
            opts.clusterGap) then (st, false)
      else
        let area' := { area with
          x := area.x + dx
          y := area.y + dy
          bandTop := area.bandTop + dy
          bandBottom := area.bandBottom + dy }
        ({ areas := st.areas.set c area'
           leaves := shiftLeavesAt st.leaves (leafIdxs.getD c []) dx dy
           bounds := st.bounds.set c nextBounds }, true)

/-- Accumulate one `tryMoveCluster` attempt into the pass's `moved` flag. -/
def compactFoldStep (P : JsMathPrims) (opts : CompactOptions) (root : ℚ × ℚ)
    (leafIdxs : List (List ℕ)) (acc : CompactState × Bool) (c : ℕ) :
    CompactState × Bool :=
  let r := tryMoveCluster P opts root leafIdxs acc.1 c
  (r.1, acc.2 || r.2)

/-- One iteration of the compaction loop: sort the clusters farthest-first by
current distance to the root (the JavaScript comparator
`dist(b) - dist(a)`), then try to move each in that order. -/
def compactPass (P : JsMathPrims) (opts : CompactOptions) (root : ℚ × ℚ)
    (leafIdxs : List (List ℕ)) (st : CompactState) : CompactState × Bool :=
  let ordered := jsSortWith (fun a b =>
    distanceToPoint P (st.areas.getD b defaultArea).x (st.areas.getD b defaultArea).y root.1 root.2 -
    distanceToPoint P (st.areas.getD a defaultArea).x (st.areas.getD a defaultArea).y root.1 root.2)
    (List.range st.areas.length)
  ordered.foldl (compactFoldStep P opts root leafIdxs) (st, false)

/-- The outer `for (iteration < maxIterations)` loop with its
`if (!moved) break`. -/
def compactLoop (P : JsMathPrims) (opts : CompactOptions) (root : ℚ × ℚ)
    (leafIdxs : List (List ℕ)) : ℕ → CompactState → CompactState
  | 0, st => st
  | n + 1, st =>
    let r := compactPass P opts root leafIdxs st
    if r.2 then compactLoop P opts root leafIdxs n r.1 else r.1

/-- `compactClustersTowardCore(areas, leaves, root, options)`: build one
cluster per area (its leaves are the store indices whose `clusterId` equals
the area key) with cached bounds, then run up to 320 compaction iterations. -/
def compactClustersTowardCore (P : JsMathPrims) (areas : List SkillArea)
    (leaves : List SkillLeaf) (root : ℚ × ℚ) (opts : CompactOptions) :
    List SkillArea × List SkillLeaf :=
  if areas.length = 0 then (areas, leaves)
  else
    let leafIdxs := areas.map (fun a =>
      ((leaves.enum).filter (fun p => p.2.clusterId == a.key)).map (fun p => p.1))
    let bounds := areas.map (fun a =>
      getClusterBounds a (leaves.filter (fun l => l.clusterId == a.key)))
    let final := compactLoop P opts root leafIdxs 320
      { areas := areas, leaves := leaves, bounds := bounds }
    (final.areas, final.leaves)

/-- The distance from a cluster's area anchor to the root, measured with the
same `Math.hypot` primitive the compaction loop uses. -/
def anchorDistance (P : JsMathPrims) (root : ℚ × ℚ) (areas : List SkillArea)
    (c : ℕ) : ℚ :=
  P.hypot (root.1 - (areas.getD c defaultArea).x) (root.2 - (areas.getD c defaultArea).y)

/-! ## Area-node pairwise separation (App.tsx lines 1125-1203) -/

/-- The `options` record of `separateAreaNodes` / `shiftAreaClusterY`. -/
structure SeparateOptions where
  zone : SkillZone
  zoneGap : ℚ
  height : ℚ
  boundaryPadding : ℚ

/-- `Math.sign`. -/
def qSign (q : ℚ) : ℚ := if q < 0 then -1 else if q = 0 then 0 else 1

/-- The leaf translation used during separation (vertical fields only). -/
def shiftLeafY (applied : ℚ) (leaf : SkillLeaf) : SkillLeaf :=
  { leaf with
    y := leaf.y + applied
    areaY := leaf.areaY + applied
    baseBoxY := leaf.baseBoxY + applied
    boxY := leaf.boxY + applied
    boxCenterY := leaf.boxCenterY + applied
    minY := leaf.minY + applied
    maxY := leaf.maxY + applied }

def shiftLeafYSetStep (applied : ℚ) (ls : List SkillLeaf) (j : ℕ) : List SkillLeaf :=
  ls.set j (shiftLeafY applied (ls.getD j defaultLeaf))

/-- `shiftAreaClusterY(area, leaves, deltaY, root, options)`: clamp the target
anchor y into the zone's valid range; if the applied delta is at least 0.1 in
magnitude, translate the area (with its band) and its lane leaves (store
indices `laneIdxs`) by it and report `true`. -/
def shiftAreaClusterY (areas : List SkillArea) (leaves : List SkillLeaf)
    (laneIdxs : List ℕ) (i : ℕ) (deltaY : ℚ) (root : ℚ × ℚ)
    (opts : SeparateOptions) : (List SkillArea × List SkillLeaf) × Bool :=
  let area := areas.getD i defaultArea
  let minY := if opts.zone = .upper then opts.boundaryPadding + 18
    else root.2 + opts.zoneGap + 12
  let maxY := if opts.zone = .upper then root.2 - opts.zoneGap - 12
    else opts.height - opts.boundaryPadding - 18
  let targetY := clamp (area.y + deltaY) minY maxY
  let applied := targetY - area.y
  if |applied| < 1/10 then ((areas, leaves), false)
  else
    let area' := { area with
      y := targetY
      bandTop := area.bandTop + applied
      bandBottom := area.bandBottom + applied }
    ((areas.set i area', laneIdxs.foldl (shiftLeafYSetStep applied) leaves), true)

/-- The ordered pair indices visited by the nested
`for (i) for (j = i + 1)` loops. -/
def orderedPairs (n : ℕ) : List (ℕ × ℕ) :=
  (List.range n).flatMap (fun i =>
    ((List.range n).filter (fun j => i < j)).map (fun j => (i, j)))

/-- The body of the separation loop for one pair `(i, j)`: when both the
horizontal and vertical anchor gaps are below `minXGap = 202` / `minYGap = 52`,
push the two clusters apart vertically by `overlapY / 2 + 1` each, in the
direction given by `Math.sign(dy)` (zone-dependent on a tie). -/
def separatePairStep (root : ℚ × ℚ) (opts : SeparateOptions)
    (laneIdxsOf : List (List ℕ)) (st : List SkillArea × List SkillLeaf)
    (i j : ℕ) : (List SkillArea × List SkillLeaf) × Bool :=
  let a := st.1.getD i defaultArea
  let b := st.1.getD j defaultArea
  let dx := b.x - a.x
  let dy := b.y - a.y
  let overlapX := 202 - |dx|
  let overlapY := 52 - |dy|
  if overlapX ≤ 0 ∨ overlapY ≤ 0 then (st, false)
  else
    let direction := if dy = 0 then (if opts.zone = .upper then (-1 : ℚ) else 1)
      else qSign dy
    let delta := overlapY / 2 + 1
    let r1 := shiftAreaClusterY st.1 st.2 (laneIdxsOf.getD i []) i
      (-direction * delta) root opts
    let r2 := shiftAreaClusterY r1.1.1 r1.1.2 (laneIdxsOf.getD j []) j
      (direction * delta) root opts
    (r2.1, r1.2 || r2.2)

/-- Accumulate one pair's separation attempt into the pass's `moved` flag. -/
def separateFoldStep (root : ℚ × ℚ) (opts : SeparateOptions)
    (laneIdxsOf : List (List ℕ)) (acc : (List SkillArea × List SkillLeaf) × Bool)
    (p : ℕ × ℕ) : (List SkillArea × List SkillLeaf) × Bool :=
  let r := separatePairStep root opts laneIdxsOf acc.1 p.1 p.2
  (r.1, acc.2 || r.2)

/-- One iteration of the separation loop over all ordered pairs. -/
def separatePass (root : ℚ × ℚ) (opts : SeparateOptions)
    (laneIdxsOf : List (List ℕ)) (st : List SkillArea × List SkillLeaf) :
    (List SkillArea × List SkillLeaf) × Bool :=
  (orderedPairs st.1.length).foldl (separateFoldStep root opts laneIdxsOf) (st, false)

/-- The outer separation loop (up to 64 iterations, stopping when a pass
moves nothing). -/
def separateLoop (root : ℚ × ℚ) (opts : SeparateOptions)
    (laneIdxsOf : List (List ℕ)) :
    ℕ → List SkillArea × List SkillLeaf → List SkillArea × List SkillLeaf
  | 0, st => st
  | n + 1, st =>
    let r := separatePass root opts laneIdxsOf st
    if r.2 then separateLoop root opts laneIdxsOf n r.1 else r.1

/-- `separateAreaNodes(areas, leaves, root, options)`. -/
def separateAreaNodes (areas : List SkillArea) (leaves : List SkillLeaf)
    (root : ℚ × ℚ) (opts : SeparateOptions) :
    List SkillArea × List SkillLeaf :=
  if areas.length < 2 then (areas, leaves)
  else
    let laneIdxsOf := areas.map (fun a =>
      ((leaves.enum).filter (fun p => p.2.clusterId == a.key)).map (fun p => p.1))
    separateLoop root opts laneIdxsOf 64 (areas, leaves)

/-! ## View-box fitting (App.tsx lines 1205-1263) -/

/-- The returned `viewBox`. -/
structure ViewBox where
  x : ℚ
  y : ℚ
  width : ℚ
  height : ℚ

/-- The `include(x, y, padding)` closure of `computeSkillTreeViewBox`. -/
def vbInclude (b : Bounds) (x y padding : ℚ) : Bounds :=
  { minX := min b.minX (x - padding)
    maxX := max b.maxX (x + padding)
    minY := min b.minY (y - padding)
    maxY := max b.maxY (y + padding) }

/-- `computeSkillTreeViewBox`: accumulate the extent of the root, every area
node with its two branch control points, every topic box with orb, text rows
and twig control point; pad by 30, floor/ceil to integers, clamp the size to
`[960, width] × [640, height]` and the origin so the window stays inside the
canvas. -/
def computeSkillTreeViewBox (width height : ℚ) (root : ℚ × ℚ)
    (areas rootAreas : List SkillArea) (topics rootTopics : List SkillLeaf) :
    ViewBox :=
  let b0 : Bounds := ⟨root.1 - 260, root.1 + 260, root.2 - 280, root.2 + 120⟩
  let b1 := (areas ++ rootAreas).foldl (fun b area =>
    let b := vbInclude b area.x area.y 108
    let b := vbInclude b (root.1 + area.side * 28)
      (root.2 + (if area.y < root.2 then (-170 : ℚ) else 120)) 24
    vbInclude b (area.x - area.side * 34)
      (area.y + (if area.y < root.2 then (110 : ℚ) else -82)) 24) b0
  let b2 := (topics ++ rootTopics).foldl (fun b t =>
    let b := vbInclude b t.areaX t.areaY 24
    let b := vbInclude b t.boxAnchorX t.boxCenterY (t.radius + 4)
    let b := vbInclude b (t.boxX + t.boxWidth / 2) (t.boxY + t.boxHeight / 2)
      ((max t.boxWidth t.boxHeight) / 2 + 6)
    let b := vbInclude b t.textX (t.boxY + 18) 14
    let b := vbInclude b t.textX (t.boxY + 34) 14
    vbInclude b (t.boxAnchorX - t.side * 54)
      (t.boxCenterY + (if t.zone = .upper then (48 : ℚ) else -42)) 18) b1
  let b3 := vbInclude (vbInclude b2 root.1 root.2 28) root.1 (root.2 + 62) 20
  let padding : ℚ := 30
  let x := clamp ((⌊b3.minX - padding⌋ : ℤ) : ℚ) 0 (width - 1)
  let y := clamp ((⌊b3.minY - padding⌋ : ℤ) : ℚ) 0 (height - 1)
  let viewWidth := clamp ((⌈b3.maxX - b3.minX + padding * 2⌉ : ℤ) : ℚ) 960 width
  let viewHeight := clamp ((⌈b3.maxY - b3.minY + padding * 2⌉ : ℤ) : ℚ) 640 height
  { x := clamp x 0 (max 0 (width - viewWidth))
    y := clamp y 0 (max 0 (height - viewHeight))
    width := viewWidth
    height := viewHeight }

/-! ## `buildRoadmapSkillTreeLayout` (App.tsx lines 842-1027) -/

/-- ASCII lower-casing of one code unit (the area names the source tests are
ASCII, where `toLowerCase` acts per character). -/
def asciiLower (c : Char) : Char :=
  if 'A' ≤ c && c ≤ 'Z' then Char.ofNat (c.toNat + 32) else c

/-- Contiguous-subsequence test (`String.prototype.includes`). -/
def containsSeq (sub : List Char) : List Char → Bool
  | [] => leadsWith sub []
  | c :: cs => leadsWith sub (c :: cs) || containsSeq sub cs

/-- Accumulator for one zone's group loop. -/
structure ZoneBuildAcc where
  areas : List SkillArea
  topics : List SkillLeaf
  negIntervals : List QInterval
  posIntervals : List QInterval

/-- The per-task leaf record both group loops push (`stemOffset` is 88 in the
upper zone and 84 in the root zone; `rowStep = 54`, `boxHeight = 40`). -/
def mkSkillLeaf (zone : SkillZone) (clusterKey : String) (stemOffset : ℚ)
    (baseX areaY side : ℚ) (color : String) (bandTop bandBottom : ℚ)
    (ti : ℕ) (task : RoadmapItem) : SkillLeaf :=
  let lane : ℚ := if ti % 2 = 0 then -1 else 1
  let depth : ℚ := ((ti / 2 : ℕ) : ℚ)
  let pointY := bandTop + 20 + (ti : ℚ) * 54
  let pointX := baseX + side * (stemOffset + depth * 12) + lane * 6
  let boxWidth := max 238 (min 320 (108 + (task.topic.length : ℚ) * (39/10)))
  let boxHeight : ℚ := 40
  let boxX := if side > 0 then pointX + 16 else pointX - 16 - boxWidth
  { id := task.id
    clusterId := clusterKey
    topic := task.topic
    displayTopic := String.mk (shortenSkillLabel task.topic.data 40)
    status := task.status
    progress := task.progress
    link := task.link
    x := pointX
    y := pointY
    areaX := baseX
    areaY := areaY
    side := side
    color := color
    statusColor := statusColorOf task.status
    radius := 10 + ((jsRound (task.progress / 26) : ℤ) : ℚ)
    zone := zone
    boxWidth := boxWidth
    boxHeight := boxHeight
    baseBoxY := pointY - boxHeight / 2
    boxX := boxX
    boxY := pointY - boxHeight / 2
    boxCenterY := pointY
    boxAnchorX := if side > 0 then boxX else boxX + boxWidth
    textX := if side > 0 then boxX + 10 else boxX + boxWidth - 10
    textAnchor := if side > 0 then "start" else "end"
    minY := bandTop + 4
    maxY := bandBottom - boxHeight - 4 }

/-- The body of the `upperGroups.forEach` loop (App.tsx lines 868-930). -/
def upperGroupStep (P : JsMathPrims) (rootX rootY : ℚ) (upperAngles : List ℚ)
    (acc : ZoneBuildAcc) (p : ℕ × RoadmapGroup) : ZoneBuildAcc :=
  let idx := p.1
  let group := p.2
  let angle := upperAngles.getD idx 0
  let radius : ℚ := 264 + (((idx + 1) / 2 : ℕ) : ℚ) * 34
  let base := polarPoint P rootX rootY radius angle
  let side0 : ℚ := if base.1 ≤ rootX then -1 else 1
  let side : ℚ := if |base.1 - rootX| < 24 then (if idx % 2 = 0 then -1 else 1) else side0
  let rowStep : ℚ := 54
  let bandHeight := max 108 ((group.tasks.length : ℚ) * rowStep + 36)
  let bandBottom0 := base.2 - 18
  let bandTop0 := bandBottom0 - bandHeight
  let sideIntervals := if side < 0 then acc.negIntervals else acc.posIntervals
  let shift := findBandShift bandTop0 bandBottom0 sideIntervals 112
  let bandTop := bandTop0 + shift
  let bandBottom := bandBottom0 + shift
  let newIntervals := jsSortWith (fun a b => a.start - b.start)
    (sideIntervals ++ [⟨bandTop, bandBottom⟩])
  let color := areaPalette.getD (idx % 6) ""
  let areaY := base.2 + shift
  let area : SkillArea :=
    ⟨group.area, group.area, base.1, areaY, color, side, bandTop, bandBottom⟩
  let newLeaves := (group.tasks.enum).map (fun t =>
    mkSkillLeaf .upper area.key 88 base.1 areaY side color bandTop bandBottom t.1 t.2)
  { areas := acc.areas ++ [area]
    topics := acc.topics ++ newLeaves
    negIntervals := if side < 0 then newIntervals else acc.negIntervals
    posIntervals := if side < 0 then acc.posIntervals else newIntervals }

/-- The body of the `lowerGroups.forEach` loop (App.tsx lines 934-996). -/
def lowerGroupStep (P : JsMathPrims) (rootX rootY : ℚ) (lowerAngles : List ℚ)
    (lowerCount upperCount : ℕ) (acc : ZoneBuildAcc) (p : ℕ × RoadmapGroup) :
    ZoneBuildAcc :=
  let idx := p.1
  let group := p.2
  let sideHint : ℚ := if containsSeq "python".data (group.area.data.map asciiLower) then 1 else -1
  let angle := if lowerCount = 2 then (if sideHint > 0 then (70 : ℚ) else 110)
    else lowerAngles.getD idx 0
  let radius : ℚ := 214 + (((idx + 1) / 2 : ℕ) : ℚ) * 34
  let base := polarPoint P rootX rootY radius angle
  let side : ℚ := if base.1 ≤ rootX then -1 else 1
  let rowStep : ℚ := 54
  let bandHeight := max 108 ((group.tasks.length : ℚ) * rowStep + 36)
  let bandTop0 := base.2 + 18
  let bandBottom0 := bandTop0 + bandHeight
  let sideIntervals := if side < 0 then acc.negIntervals else acc.posIntervals
  let shift := findBandShift bandTop0 bandBottom0 sideIntervals 108
  let bandTop := bandTop0 + shift
  let bandBottom := bandBottom0 + shift
  let newIntervals := jsSortWith (fun a b => a.start - b.start)
    (sideIntervals ++ [⟨bandTop, bandBottom⟩])
  let color := areaPalette.getD ((idx + upperCount) % 6) ""
  let areaY := base.2 + shift
  let area : SkillArea :=
    ⟨"root:" ++ group.area, group.area, base.1, areaY, color, side, bandTop, bandBottom⟩
  let newLeaves := (group.tasks.enum).map (fun t =>
    mkSkillLeaf .root area.key 84 base.1 areaY side color bandTop bandBottom t.1 t.2)
  { areas := acc.areas ++ [area]
    topics := acc.topics ++ newLeaves
    negIntervals := if side < 0 then newIntervals else acc.negIntervals
    posIntervals := if side < 0 then acc.posIntervals else newIntervals }

/-- The full layout the component consumes. -/
structure SkillTreeLayout where
  width : ℚ
  height : ℚ
  root : ℚ × ℚ
  areas : List SkillArea
  topics : List SkillLeaf
  rootAreas : List SkillArea
  rootTopics : List SkillLeaf
  viewBox : ViewBox

/-- `buildRoadmapSkillTreeLayout(groups)`: split the grouped topic list into
the fixed root-zone area set and the upper zone, sort each
(`localeCompare` / task count then `localeCompare`), place each group's band
and leaves, then run overlap resolution, compaction, separation, a second
overlap resolution, and view-box fitting, exactly in the source's order. -/
def buildRoadmapSkillTreeLayout (P : JsMathPrims) (groups : List RoadmapGroup) :
    SkillTreeLayout :=
  let rootZoneAreas : List String := ["Mathematics", "Mathmatics", "Python"]
  let lowerGroups := jsSortWith (fun a b => P.localeCompare a.area b.area)
    (groups.filter (fun g => rootZoneAreas.contains g.area))
  let upperGroups := jsSortWith (fun a b =>
      jsOr ((b.tasks.length : ℚ) - (a.tasks.length : ℚ)) (P.localeCompare a.area b.area))
    (groups.filter (fun g => !(rootZoneAreas.contains g.area)))
  let width : ℚ := 1720
  let height : ℚ := 1220
  let rootX := width / 2
  let rootY := height / 2 + 10
  let upperAngles := buildCenteredAngles (-90) 72 upperGroups.length
  let lowerAngles := buildCenteredAngles 90 64 lowerGroups.length
  let u := (upperGroups.enum).foldl (upperGroupStep P rootX rootY upperAngles)
    ⟨[], [], [], []⟩
  let l := (lowerGroups.enum).foldl
    (lowerGroupStep P rootX rootY lowerAngles lowerGroups.length upperGroups.length)
    ⟨[], [], [], []⟩
  let topics1 := resolveLeafOverlap u.topics (buildAreaLaneBlockers u.areas) 240
  let rootTopics1 := resolveLeafOverlap l.topics (buildAreaLaneBlockers l.areas) 240
  let c1 := compactClustersTowardCore P u.areas topics1 (rootX, rootY)
    ⟨width, height, .upper, 124, 106, 98, 8, 12⟩
  let c2 := compactClustersTowardCore P l.areas rootTopics1 (rootX, rootY)
    ⟨width, height, .root, 92, 84, 98, 8, 12⟩
  let s1 := separateAreaNodes c1.1 c1.2 (rootX, rootY) ⟨.upper, 106, height, 12⟩
  let s2 := separateAreaNodes c2.1 c2.2 (rootX, rootY) ⟨.root, 84, height, 12⟩
  let topics2 := resolveLeafOverlap s1.2 (buildAreaLaneBlockers s1.1) 240
  let rootTopics2 := resolveLeafOverlap s2.2 (buildAreaLaneBlockers s2.1) 240
  let viewBox := computeSkillTreeViewBox width height (rootX, rootY) s1.1 s2.1
    topics2 rootTopics2
  { width := width
    height := height
    root := (rootX, rootY)
    areas := s1.1
    topics := topics2
    rootAreas := s2.1
    rootTopics := rootTopics2
    viewBox := viewBox }

/-! ## Concrete fixtures used by witnesses -/

/-- A concrete interpretation of the transcendental primitives, used only to
instantiate theorems at concrete inputs: any fixed functions will do for
determinism, and its `hypot` is absolutely homogeneous as the real
`Math.hypot` is. -/
def demoPrims : JsMathPrims :=
  ⟨fun _ => 0, fun _ => 0, fun a b => |a| + |b|, fun _ _ => 0⟩

/-- A one-area, one-task grouped topic list. -/
def demoGroups : List RoadmapGroup :=
  [⟨"Observability", [⟨"t1", "Observability", "Prometheus", .studying, 40, "High", ""⟩]⟩]

/-- The compaction options the source passes for the upper zone. -/
def demoOpts : CompactOptions := ⟨1720, 1220, .upper, 124, 106, 98, 8, 12⟩

/-- A single upper-zone cluster 330px above the root point `(860, 630)`. -/
def demoArea : SkillArea :=
  { key := "A", area := "A", x := 860, y := 300, color := "", side := 1,
    bandTop := 280, bandBottom := 320 }

/-- A compaction state holding just `demoArea` with its bounds. -/
def demoSt : CompactState :=
  { areas := [demoArea], leaves := [], bounds := [⟨800, 920, 280, 320⟩] }

/-! ## Helper lemmas -/

/-- `leadsWith` decides the prefix relation. -/
theorem leadsWith_iff (pre : List Char) : ∀ l : List Char,
    leadsWith pre l = true ↔ ∃ rest, l = pre ++ rest := by
  induction pre with
  | nil =>
    intro l
    constructor
    · intro _; exact ⟨l, rfl⟩
    · intro _; rfl
  | cons p ps ih =>
    intro l
    cases l with
    | nil =>
      constructor
      · intro h; simp [leadsWith] at h
      · rintro ⟨rest, h⟩; simp at h
    | cons c cs =>
      constructor
      · intro h
        simp only [leadsWith, Bool.and_eq_true, beq_iff_eq] at h
        obtain ⟨rest, hrest⟩ := (ih cs).mp h.2
        exact ⟨rest, by simp [h.1, hrest]⟩
      · rintro ⟨rest, h⟩
        simp only [List.cons_append, List.cons.injEq] at h
        simp only [leadsWith, Bool.and_eq_true, beq_iff_eq]
        exact ⟨h.1.symm, (ih cs).mpr ⟨rest, h.2⟩⟩

/-- `schemeTestAux` accepts exactly the strings made of letters up to a colon. -/
theorem schemeTestAux_iff : ∀ l : List Char,
    schemeTestAux l = true ↔
      ∃ s rest, l = s ++ ':' :: rest ∧ ∀ c ∈ s, isAsciiAlpha c = true := by
  intro l
  induction l with
  | nil =>
    constructor
    · intro h; simp [schemeTestAux] at h
    · rintro ⟨s, rest, h, -⟩; cases s <;> simp at h
  | cons c tl ih =>
    by_cases hc : c = ':'
    · subst hc
      constructor
      · intro _; exact ⟨[], tl, rfl, by simp⟩
      · intro _; simp [schemeTestAux]
    · constructor
      · intro h
        simp only [schemeTestAux, if_neg hc, Bool.and_eq_true] at h
        obtain ⟨s, rest, hrest, halpha⟩ := ih.mp h.2
        refine ⟨c :: s, rest, by simp [hrest], ?_⟩
        intro x hx
        rcases List.mem_cons.mp hx with hx | hx
        · exact hx ▸ h.1
        · exact halpha x hx
      · rintro ⟨s, rest, hrest, halpha⟩
        cases s with
        | nil =>
          simp only [List.nil_append] at hrest
          injection hrest with hhead _
          exact absurd hhead hc
        | cons a s' =>
          simp only [List.cons_append, List.cons.injEq] at hrest
          simp only [schemeTestAux, if_neg hc, Bool.and_eq_true]
          refine ⟨hrest.1 ▸ halpha a (by simp), ?_⟩
          exact ih.mpr ⟨s', rest, hrest.2, fun x hx => halpha x (List.mem_cons_of_mem a hx)⟩

/-- `schemeTest` decides the regex `/^[a-z]+:/i`. -/
theorem schemeTest_iff (l : List Char) :
    schemeTest l = true ↔
      ∃ s rest, l = s ++ ':' :: rest ∧ s ≠ [] ∧ ∀ c ∈ s, isAsciiAlpha c = true := by
  cases l with
  | nil =>
    constructor
    · intro h; simp [schemeTest] at h
    · rintro ⟨s, rest, h, hne, -⟩
      cases s with
      | nil => exact absurd rfl hne
      | cons a s' => simp at h
  | cons c tl =>
    constructor
    · intro h
      simp only [schemeTest, Bool.and_eq_true] at h
      obtain ⟨s, rest, hrest, halpha⟩ := (schemeTestAux_iff tl).mp h.2
      refine ⟨c :: s, rest, by simp [hrest], by simp, ?_⟩
      intro x hx
      rcases List.mem_cons.mp hx with hx | hx
      · exact hx ▸ h.1
      · exact halpha x hx
    · rintro ⟨s, rest, hrest, hne, halpha⟩
      cases s with
      | nil => exact absurd rfl hne
      | cons a s' =>
        simp only [List.cons_append, List.cons.injEq] at hrest
        simp only [schemeTest, Bool.and_eq_true]
        refine ⟨hrest.1 ▸ halpha a (by simp), ?_⟩
        exact (schemeTestAux_iff tl).mpr
          ⟨s', rest, hrest.2, fun x hx => halpha x (List.mem_cons_of_mem a hx)⟩

/-! ## C10 -/

/-- C10: `resolveReadmeUrl` returns the empty string for an undefined or empty
url; returns the url unchanged whenever it begins with a URI scheme (one or
more ASCII letters followed by `':'`), with `"//"`, or with `"#"`; and
otherwise returns the raw base (when `preferRaw`) or blob base concatenated
with the url after stripping one leading `"./"` and all leading `'/'`
characters. -/
theorem resolveReadmeUrl_correct :
    (∀ rawBase blobBase preferRaw,
        resolveReadmeUrl none rawBase blobBase preferRaw = [] ∧
        resolveReadmeUrl (some []) rawBase blobBase preferRaw = []) ∧
    (∀ u, schemeTest u = true ↔
        ∃ s rest, u = s ++ ':' :: rest ∧ s ≠ [] ∧ ∀ c ∈ s, isAsciiAlpha c = true) ∧
    (∀ pre u, leadsWith pre u = true ↔ ∃ rest, u = pre ++ rest) ∧
    (∀ u rawBase blobBase preferRaw,
        schemeTest u = true ∨ leadsWith ['/', '/'] u = true ∨ leadsWith ['#'] u = true →
        resolveReadmeUrl (some u) rawBase blobBase preferRaw = u) ∧
    (∀ u rawBase blobBase preferRaw, u ≠ [] → schemeTest u = false →
        leadsWith ['/', '/'] u = false → leadsWith ['#'] u = false →
        resolveReadmeUrl (some u) rawBase blobBase preferRaw =
          (if preferRaw then rawBase else blobBase) ++
            ((stripLeadingDotSlash u).dropWhile (fun c => c == '/'))) := by
  refine ⟨fun _ _ _ => ⟨rfl, rfl⟩, schemeTest_iff, fun pre u => leadsWith_iff pre u, ?_, ?_⟩
  · intro u rawBase blobBase preferRaw h
    have hne : u ≠ [] := by
      rintro rfl
      rcases h with h | h | h <;> simp [schemeTest, leadsWith] at h
    have hcond : (schemeTest u || leadsWith ['/', '/'] u || leadsWith ['#'] u) = true := by
      rcases h with h | h | h <;> simp [h]
    simp [resolveReadmeUrl, hne, hcond]
  · intro u rawBase blobBase preferRaw hne h1 h2 h3
    simp [resolveReadmeUrl, hne, h1, h2, h3]

/-- Witness for C10: concrete applications of each case. -/
theorem resolveReadmeUrl_correct_witness :
    (schemeTest ['h', 't', 't', 'p', ':'] = true ∧
      resolveReadmeUrl (some ['h', 't', 't', 'p', ':']) ['r'] ['b'] true =
        ['h', 't', 't', 'p', ':']) ∧
    ((['.', '/', 'a'] : List Char) ≠ [] ∧
      resolveReadmeUrl (some ['.', '/', 'a']) ['r'] ['b'] true =
        (if true then ['r'] else ['b']) ++
          ((stripLeadingDotSlash ['.', '/', 'a']).dropWhile (fun c => c == '/'))) := by
  constructor
  · exact ⟨by decide,
      resolveReadmeUrl_correct.2.2.2.1 ['h', 't', 't', 'p', ':'] ['r'] ['b'] true
        (Or.inl (by decide))⟩
  · exact ⟨by decide,
      resolveReadmeUrl_correct.2.2.2.2 ['.', '/', 'a'] ['r'] ['b'] true
        (by decide) (by decide) (by decide) (by decide)⟩

/-! ## C3 -/

/-- C3: contrary to the spec's stated fallback policy, the axis model does
not fall back to a default bounded range on an empty event set: every field
is `NaN` (`Math.min` of an empty spread is `Infinity`, `new
Date(Infinity).getFullYear()` is `NaN`, and `NaN` propagates through
`minYear`, `maxYear` and `totalQuarters`). -/
theorem experienceTimelineModel_empty_nan :
    ∀ (yearOfMs : ℚ → ℤ) (currentYear : ℤ),
      (experienceTimelineModel yearOfMs currentYear []).minYear = JSNum.nan ∧
      (experienceTimelineModel yearOfMs currentYear []).maxYear = JSNum.nan ∧
      (experienceTimelineModel yearOfMs currentYear []).totalQuarters = JSNum.nan :=
  fun _ _ => ⟨rfl, rfl, rfl⟩

/-! ## C6 -/

/-- C6 counterexample: a rendered event whose raw right pixel edge (1390) is
left of `scrollLeft` (5000) has `hasPastOverflow = true`, refuting the
claim's `isPastOverflow = false` (its label-invisibility half does hold). -/
theorem timelineBar_fullyLeft_pastOverflow_ctrex :
    (timelineBarGeometry ⟨2005, 0, 1⟩ ⟨2005, 11, 31⟩ 2000 184 58 5000 800 0).rendered = true ∧
    (timelineBarGeometry ⟨2005, 0, 1⟩ ⟨2005, 11, 31⟩ 2000 184 58 5000 800 0).rawRightPx < 5000 ∧
    (timelineBarGeometry ⟨2005, 0, 1⟩ ⟨2005, 11, 31⟩ 2000 184 58 5000 800 0).hasPastOverflow = true ∧
    (timelineBarGeometry ⟨2005, 0, 1⟩ ⟨2005, 11, 31⟩ 2000 184 58 5000 800 0).hasViewportOverlap = false := by
  with_unfolding_all decide

/-- C6 (amended): for every timeline event whose bar's raw right pixel edge
is less than `scrollLeft`, the viewport-overlap condition for drawing the
label is false (no visible label), and, provided the viewport is at least
2px wide, `hasFutureOverflow` is false.  (`hasPastOverflow`, which the claim
as stated asserted to be false, is in fact true for such bars.) -/
theorem timelineBar_fullyLeft_flags (startDate endDate : JSDate) (minYear : ℤ)
    (totalQuarters quarterWidth scrollLeft viewportWidth : ℚ) (idx : ℕ)
    (h : (timelineBarGeometry startDate endDate minYear totalQuarters
        quarterWidth scrollLeft viewportWidth idx).rawRightPx < scrollLeft) :
    (timelineBarGeometry startDate endDate minYear totalQuarters
        quarterWidth scrollLeft viewportWidth idx).hasViewportOverlap = false ∧
    (2 ≤ viewportWidth →
      (timelineBarGeometry startDate endDate minYear totalQuarters
          quarterWidth scrollLeft viewportWidth idx).hasFutureOverflow = false) := by
  have hR : (timelineBarGeometry startDate endDate minYear totalQuarters
      quarterWidth scrollLeft viewportWidth idx).rawRightPx =
      quarterPositionFromModel (addDays endDate 1) minYear * quarterWidth - 2 := rfl
  rw [hR] at h
  constructor
  · show (decide (quarterPositionFromModel (addDays endDate 1) minYear * quarterWidth - 2
        > scrollLeft) && _) = false
    have : ¬ (quarterPositionFromModel (addDays endDate 1) minYear * quarterWidth - 2
        > scrollLeft) := not_lt.mpr (le_of_lt h)
    simp [this]
  · intro hvw
    show decide (quarterPositionFromModel (addDays endDate 1) minYear * quarterWidth - 2
        > scrollLeft + viewportWidth - 2) = false
    have : ¬ (quarterPositionFromModel (addDays endDate 1) minYear * quarterWidth - 2
        > scrollLeft + viewportWidth - 2) := by
      push_neg
      linarith
    simp [this]

/-- Witness for C6's amended theorem at a concrete fully-left bar. -/
theorem timelineBar_fullyLeft_flags_witness :
    (timelineBarGeometry ⟨2003, 0, 1⟩ ⟨2003, 11, 31⟩ 2000 184 58 9000 700 2).rawRightPx < 9000 ∧
    (2 : ℚ) ≤ 700 ∧
    (timelineBarGeometry ⟨2003, 0, 1⟩ ⟨2003, 11, 31⟩ 2000 184 58 9000 700 2).hasViewportOverlap = false ∧
    (timelineBarGeometry ⟨2003, 0, 1⟩ ⟨2003, 11, 31⟩ 2000 184 58 9000 700 2).hasFutureOverflow = false := by
  have h : (timelineBarGeometry ⟨2003, 0, 1⟩ ⟨2003, 11, 31⟩ 2000 184 58 9000 700 2).rawRightPx < 9000 := by
    with_unfolding_all decide
  have main := timelineBar_fullyLeft_flags ⟨2003, 0, 1⟩ ⟨2003, 11, 31⟩ 2000 184 58 9000 700 2 h
  exact ⟨h, by norm_num, main.1, main.2 (by norm_num)⟩

/-! ## Date lemmas for C4 / C5 -/

/-- Every month has a positive number of days. -/
theorem daysInMonth_pos (y m : ℤ) : 0 < daysInMonth y m := by
  unfold daysInMonth
  split_ifs <;> norm_num

/-- `quarterPositionFromModel` written without the `let` bindings. -/
theorem quarterPositionFromModel_eq (d : JSDate) (minYear : ℤ) :
    quarterPositionFromModel d minYear =
      (((d.year - minYear : ℤ) : ℚ) * 12 + (d.month : ℚ) +
        ((d.day : ℚ) - 1) / ((daysInMonth d.year d.month : ℤ) : ℚ)) / 3 := rfl

/-- The intra-month fraction of a valid date is in `[0, 1)`. -/
theorem monthProgress_bounds (d : JSDate) (hv : validDate d) :
    0 ≤ ((d.day : ℚ) - 1) / ((daysInMonth d.year d.month : ℤ) : ℚ) ∧
    ((d.day : ℚ) - 1) / ((daysInMonth d.year d.month : ℤ) : ℚ) < 1 := by
  obtain ⟨-, -, hda, hdb⟩ := hv
  have hdim : (0 : ℚ) < ((daysInMonth d.year d.month : ℤ) : ℚ) := by
    exact_mod_cast daysInMonth_pos d.year d.month
  constructor
  · apply div_nonneg _ (le_of_lt hdim)
    have : (1 : ℚ) ≤ (d.day : ℚ) := by exact_mod_cast hda
    linarith
  · rw [div_lt_one hdim]
    have : (d.day : ℚ) ≤ ((daysInMonth d.year d.month : ℤ) : ℚ) := by exact_mod_cast hdb
    linarith

/-- `quarterPositionFromModel` is monotone in calendar order on valid dates. -/
theorem quarterPosition_mono (d1 d2 : JSDate) (minYear : ℤ)
    (h1 : validDate d1) (h2 : validDate d2) (h : dateLE d1 d2) :
    quarterPositionFromModel d1 minYear ≤ quarterPositionFromModel d2 minYear := by
  obtain ⟨hf1, hf1'⟩ := monthProgress_bounds d1 h1
  obtain ⟨hf2, hf2'⟩ := monthProgress_bounds d2 h2
  obtain ⟨hm1a, hm1b, hd1a, hd1b⟩ := h1
  obtain ⟨hm2a, hm2b, hd2a, hd2b⟩ := h2
  rw [quarterPositionFromModel_eq, quarterPositionFromModel_eq,
    div_le_div_iff₀ (by norm_num) (by norm_num)]
  have hm1bQ : (d1.month : ℚ) ≤ 11 := by exact_mod_cast hm1b
  have hm2aQ : (0 : ℚ) ≤ (d2.month : ℚ) := by exact_mod_cast hm2a
  rcases h with hy | ⟨hy, hm | ⟨hm, hd⟩⟩
  · have hyQ : (d1.year : ℚ) + 1 ≤ (d2.year : ℚ) := by
      exact_mod_cast Int.add_one_le_iff.mpr hy
    push_cast
    linarith
  · have hyQ : (d1.year : ℚ) = (d2.year : ℚ) := by exact_mod_cast hy
    have hmQ : (d1.month : ℚ) + 1 ≤ (d2.month : ℚ) := by
      exact_mod_cast Int.add_one_le_iff.mpr hm
    push_cast
    linarith
  · have hyQ : (d1.year : ℚ) = (d2.year : ℚ) := by exact_mod_cast hy
    have hmQ : (d1.month : ℚ) = (d2.month : ℚ) := by exact_mod_cast hm
    have hdimEq : daysInMonth d1.year d1.month = daysInMonth d2.year d2.month := by
      rw [hy, hm]
    have hdim2 : (0 : ℚ) < ((daysInMonth d2.year d2.month : ℤ) : ℚ) := by
      exact_mod_cast daysInMonth_pos d2.year d2.month
    have hdQ : (d1.day : ℚ) ≤ (d2.day : ℚ) := by exact_mod_cast hd
    have hfle : ((d1.day : ℚ) - 1) / ((daysInMonth d1.year d1.month : ℤ) : ℚ) ≤
        ((d2.day : ℚ) - 1) / ((daysInMonth d2.year d2.month : ℤ) : ℚ) := by
      rw [hdimEq, div_le_div_iff₀ hdim2 hdim2]
      nlinarith
    push_cast
    linarith

/-- The calendar successor of a valid date is valid. -/
theorem nextCalendarDay_valid (d : JSDate) (hv : validDate d) :
    validDate (nextCalendarDay d) := by
  obtain ⟨hma, hmb, hda, hdb⟩ := hv
  unfold nextCalendarDay validDate
  split_ifs with h1 h2 <;> dsimp only
  · exact ⟨hma, hmb, by omega, by omega⟩
  · refine ⟨by omega, by omega, le_refl 1, ?_⟩
    have := daysInMonth_pos d.year (d.month + 1)
    omega
  · refine ⟨by omega, by omega, le_refl 1, ?_⟩
    have := daysInMonth_pos (d.year + 1) 0
    omega

/-- A date precedes its calendar successor. -/
theorem dateLE_nextCalendarDay (d : JSDate) : dateLE d (nextCalendarDay d) := by
  unfold nextCalendarDay dateLE
  split_ifs <;> dsimp only
  · exact Or.inr ⟨rfl, Or.inr ⟨rfl, by omega⟩⟩
  · exact Or.inr ⟨rfl, Or.inl (by omega)⟩
  · exact Or.inl (by omega)

/-! ## C4 -/

/-- C4: for every pair of valid dates with `start ≤ end` (calendar order) and
every `minYear`, the quarter position of the day after the inclusive end date
is at least the quarter position of the start date:
`quarterPosition(addDays(end, 1)) ≥ quarterPosition(start)`. -/
theorem quarterPosition_end_monotone (startDate endDate : JSDate) (minYear : ℤ)
    (hs : validDate startDate) (he : validDate endDate)
    (hse : dateLE startDate endDate) :
    quarterPositionFromModel (addDays endDate 1) minYear ≥
      quarterPositionFromModel startDate minYear := by
  have h1 := quarterPosition_mono startDate endDate minYear hs he hse
  have h2 := quarterPosition_mono endDate (nextCalendarDay endDate) minYear he
    (nextCalendarDay_valid endDate he) (dateLE_nextCalendarDay endDate)
  have hrw : addDays endDate 1 = nextCalendarDay endDate := rfl
  rw [hrw]
  exact le_trans h1 h2

/-- Witness for C4: the concrete event 2020-01-01 .. 2020-03-31. -/
theorem quarterPosition_end_monotone_witness :
    validDate ⟨2020, 0, 1⟩ ∧ validDate ⟨2020, 2, 31⟩ ∧
    dateLE ⟨2020, 0, 1⟩ ⟨2020, 2, 31⟩ ∧
    quarterPositionFromModel (addDays ⟨2020, 2, 31⟩ 1) 2020 ≥
      quarterPositionFromModel ⟨2020, 0, 1⟩ 2020 :=
  ⟨by with_unfolding_all decide, by with_unfolding_all decide,
   by with_unfolding_all decide,
   quarterPosition_end_monotone ⟨2020, 0, 1⟩ ⟨2020, 2, 31⟩ 2020
     (by with_unfolding_all decide) (by with_unfolding_all decide)
     (by with_unfolding_all decide)⟩

/-! ## C5 -/

/-- C5: every valid calendar date whose year lies within `[minYear, maxYear]`
has `quarterPosition` in `[0, totalQuarters]`, where
`totalQuarters = (maxYear - minYear + 1) * 4` as the axis model computes it. -/
theorem quarterPosition_within_axis_range (d : JSDate) (minYear maxYear : ℤ)
    (hv : validDate d) (hy1 : minYear ≤ d.year) (hy2 : d.year ≤ maxYear) :
    0 ≤ quarterPositionFromModel d minYear ∧
    quarterPositionFromModel d minYear ≤
      ((axisTotalQuarters minYear maxYear : ℤ) : ℚ) := by
  obtain ⟨hf, hf'⟩ := monthProgress_bounds d hv
  obtain ⟨hma, hmb, -, -⟩ := hv
  have hmaQ : (0 : ℚ) ≤ (d.month : ℚ) := by exact_mod_cast hma
  have hmbQ : (d.month : ℚ) ≤ 11 := by exact_mod_cast hmb
  have hy1Q : (minYear : ℚ) ≤ (d.year : ℚ) := by exact_mod_cast hy1
  have hy2Q : (d.year : ℚ) ≤ (maxYear : ℚ) := by exact_mod_cast hy2
  rw [quarterPositionFromModel_eq]
  unfold axisTotalQuarters
  constructor
  · apply div_nonneg _ (by norm_num)
    push_cast
    linarith
  · rw [div_le_iff₀ (by norm_num)]
    push_cast
    linarith

/-- Witness for C5 at the date 2021-06-15 in the range 2020..2022. -/
theorem quarterPosition_within_axis_range_witness :
    validDate ⟨2021, 5, 15⟩ ∧ (2020 : ℤ) ≤ 2021 ∧ (2021 : ℤ) ≤ 2022 ∧
    0 ≤ quarterPositionFromModel ⟨2021, 5, 15⟩ 2020 ∧
    quarterPositionFromModel ⟨2021, 5, 15⟩ 2020 ≤
      ((axisTotalQuarters 2020 2022 : ℤ) : ℚ) :=
  ⟨by with_unfolding_all decide, by norm_num, by norm_num,
   (quarterPosition_within_axis_range ⟨2021, 5, 15⟩ 2020 2022
     (by with_unfolding_all decide) (by norm_num) (by norm_num)).1,
   (quarterPosition_within_axis_range ⟨2021, 5, 15⟩ 2020 2022
     (by with_unfolding_all decide) (by norm_num) (by norm_num)).2⟩

/-! ## C2 -/

/-- C2: the skill-tree packing is deterministic: two runs of
`buildRoadmapSkillTreeLayout` on the identical grouped topic list (same order,
same constants, same primitive interpretation) produce identical output
geometry — areas, rootAreas, topics, rootTopics and viewBox. -/
theorem buildRoadmapSkillTreeLayout_deterministic (P : JsMathPrims)
    (groups : List RoadmapGroup) (out1 out2 : SkillTreeLayout)
    (h1 : out1 = buildRoadmapSkillTreeLayout P groups)
    (h2 : out2 = buildRoadmapSkillTreeLayout P groups) :
    out1.areas = out2.areas ∧ out1.rootAreas = out2.rootAreas ∧
    out1.topics = out2.topics ∧ out1.rootTopics = out2.rootTopics ∧
    out1.viewBox = out2.viewBox := by
  subst h1
  subst h2
  exact ⟨rfl, rfl, rfl, rfl, rfl⟩

/-- Witness for C2: two runs on the demo grouped topic list. -/
theorem buildRoadmapSkillTreeLayout_deterministic_witness :
    (buildRoadmapSkillTreeLayout demoPrims demoGroups).areas =
      (buildRoadmapSkillTreeLayout demoPrims demoGroups).areas ∧
    (buildRoadmapSkillTreeLayout demoPrims demoGroups).rootAreas =
      (buildRoadmapSkillTreeLayout demoPrims demoGroups).rootAreas ∧
    (buildRoadmapSkillTreeLayout demoPrims demoGroups).topics =
      (buildRoadmapSkillTreeLayout demoPrims demoGroups).topics ∧
    (buildRoadmapSkillTreeLayout demoPrims demoGroups).rootTopics =
      (buildRoadmapSkillTreeLayout demoPrims demoGroups).rootTopics ∧
    (buildRoadmapSkillTreeLayout demoPrims demoGroups).viewBox =
      (buildRoadmapSkillTreeLayout demoPrims demoGroups).viewBox :=
  buildRoadmapSkillTreeLayout_deterministic demoPrims demoGroups
    (buildRoadmapSkillTreeLayout demoPrims demoGroups)
    (buildRoadmapSkillTreeLayout demoPrims demoGroups) rfl rfl

/-! ## C7 -/

/-- C7: every applied compaction movement step satisfies the guards at the
moment of application: the moved upper-zone anchor stays at or above
`root.y - zoneGap` (root-zone anchors at or below `root.y + zoneGap`), the
moved cluster's bounding box stays inside the padded canvas, does not
intersect the circular root keep-out disk, and does not rectangle-overlap
(within the gap) any other cluster's current bounding box; a step violating
any of these returns the state unchanged. -/
theorem tryMoveCluster_applied_invariants
    (P : JsMathPrims) (opts : CompactOptions) (root : ℚ × ℚ)
    (leafIdxs : List (List ℕ)) (st : CompactState) (c : ℕ) (st' : CompactState)
    (hc : c < st.areas.length) (hb : c < st.bounds.length)
    (happlied : tryMoveCluster P opts root leafIdxs st c = (st', true)) :
    (opts.zone = .upper → (st'.areas.getD c defaultArea).y ≤ root.2 - opts.zoneGap) ∧
    (opts.zone = .root → root.2 + opts.zoneGap ≤ (st'.areas.getD c defaultArea).y) ∧
    (opts.boundaryPadding ≤ (st'.bounds.getD c defaultBounds).minX ∧
      (st'.bounds.getD c defaultBounds).maxX ≤ opts.width - opts.boundaryPadding ∧
      opts.boundaryPadding ≤ (st'.bounds.getD c defaultBounds).minY ∧
      (st'.bounds.getD c defaultBounds).maxY ≤ opts.height - opts.boundaryPadding) ∧
    isCircleIntersectingAabb root.1 root.2 opts.rootKeepout
      (st'.bounds.getD c defaultBounds) = false ∧
    (∀ other, other < st.areas.length → other ≠ c →
      boxesOverlap (st'.bounds.getD c defaultBounds)
        (st.bounds.getD other defaultBounds) opts.clusterGap = false) := by
  simp only [tryMoveCluster] at happlied
  split_ifs at happlied with h1 h2 h3 h4 h5 h6
  all_goals simp only [Prod.mk.injEq, Bool.false_eq_true, and_false,
    eq_self_iff_true, and_true] at happlied
  have hgetA : ∀ (a : SkillArea), (st.areas.set c a).getD c defaultArea = a := fun a => by
    simp [List.getD_eq_getElem?_getD, List.getElem?_set_self, hc]
  have hgetB : ∀ (b : Bounds), (st.bounds.set c b).getD c defaultBounds = b := fun b => by
    simp [List.getD_eq_getElem?_getD, List.getElem?_set_self, hb]
  subst happlied
  dsimp only
  rw [hgetA, hgetB]
  dsimp only
  push_neg at h4
  simp only [Bool.not_eq_true] at h5
  refine ⟨?_, ?_, ⟨h4.1, h4.2.1, h4.2.2.1, h4.2.2.2⟩, h5, ?_⟩
  · intro hz
    exact le_of_not_lt (not_and.mp h2 hz)
  · intro hz
    exact le_of_not_lt (not_and.mp h3 hz)
  · intro other holt hne
    have hnot : ¬ ((other != c) &&
        boxesOverlap _ (st.bounds.getD other defaultBounds) opts.clusterGap) = true :=
      fun hx => h6 (List.any_eq_true.mpr ⟨other, List.mem_range.mpr holt, hx⟩)
    by_contra hov
    rw [Bool.not_eq_false] at hov
    exact hnot (by rw [hov, Bool.and_true]; exact bne_iff_ne.mpr hne)

set_option maxRecDepth 8000 in
/-- Witness for C7: the demo cluster's applied step lands at or above the
upper zone boundary. -/
theorem tryMoveCluster_applied_invariants_witness :
    ((tryMoveCluster demoPrims demoOpts (860, 630) [[]] demoSt 0).1.areas.getD 0
      defaultArea).y ≤ 630 - 106 :=
  (tryMoveCluster_applied_invariants demoPrims demoOpts (860, 630) [[]] demoSt 0
    (tryMoveCluster demoPrims demoOpts (860, 630) [[]] demoSt 0).1
    (by with_unfolding_all decide) (by with_unfolding_all decide)
    (by with_unfolding_all decide)).1 rfl

/-! ## C8 -/

/-- One compaction attempt never brings a cluster anchor strictly inside
`minRadius`, and leaves every other cluster's distance unchanged
(`hh` states the absolute homogeneity of the `hypot` primitive, a property of
the real `Math.hypot`). -/
theorem tryMoveCluster_dist (P : JsMathPrims) (opts : CompactOptions) (root : ℚ × ℚ)
    (leafIdxs : List (List ℕ))
    (hh : ∀ t a b : ℚ, 0 ≤ t → P.hypot (t * a) (t * b) = t * P.hypot a b)
    (hmr : 0 ≤ opts.minRadius) (st : CompactState) (c j : ℕ)
    (hj : opts.minRadius ≤ anchorDistance P root st.areas j) :
    opts.minRadius ≤
      anchorDistance P root (tryMoveCluster P opts root leafIdxs st c).1.areas j := by
  simp only [tryMoveCluster]
  split_ifs with h1 h2 h3 h4 h5 h6
  · exact hj
  · exact hj
  · exact hj
  · exact hj
  · exact hj
  · exact hj
  dsimp only
  by_cases hcj : j = c
  · subst hcj
    by_cases hclen : j < st.areas.length
    · have hget : ∀ (a : SkillArea), (st.areas.set j a).getD j defaultArea = a := fun a => by
        simp [List.getD_eq_getElem?_getD, List.getElem?_set_self, hclen]
      unfold anchorDistance
      rw [hget]
      dsimp only
      set A := st.areas.getD j defaultArea with hA
      set vx := root.1 - A.x with hvx
      set vy := root.2 - A.y with hvy
      set d := P.hypot vx vy with hd
      set mL := (30 : ℚ) ⊓ (d - opts.minRadius) with hmL
      have hd1 : opts.minRadius + 1 < d := not_le.mp h1
      have hdpos : 0 < d := by linarith
      have hmlr : mL ≤ d - opts.minRadius := min_le_right _ _
      have hmld : mL ≤ d := by linarith
      have ht : 0 ≤ 1 - mL / d := by
        rw [sub_nonneg]
        exact (div_le_one hdpos).mpr hmld
      have e1 : root.1 - (A.x + vx / d * mL) = (1 - mL / d) * vx := by
        rw [hvx]; ring
      have e2 : root.2 - (A.y + vy / d * mL) = (1 - mL / d) * vy := by
        rw [hvy]; ring
      rw [e1, e2, hh (1 - mL / d) vx vy ht, ← hd]
      have hfin : (1 - mL / d) * d = d - mL := by field_simp
      rw [hfin]
      linarith
    · unfold anchorDistance
      rw [List.set_eq_of_length_le (le_of_not_lt hclen)]
      exact hj
  · unfold anchorDistance at hj ⊢
    rw [List.getD_eq_getElem?_getD, List.getElem?_set_ne (fun h => hcj h.symm),
      ← List.getD_eq_getElem?_getD]
    exact hj

/-- The distance invariant survives a fold of compaction attempts. -/
theorem compactFold_dist (P : JsMathPrims) (opts : CompactOptions) (root : ℚ × ℚ)
    (leafIdxs : List (List ℕ))
    (hh : ∀ t a b : ℚ, 0 ≤ t → P.hypot (t * a) (t * b) = t * P.hypot a b)
    (hmr : 0 ≤ opts.minRadius) (j : ℕ) :
    ∀ (l : List ℕ) (acc : CompactState × Bool),
      opts.minRadius ≤ anchorDistance P root acc.1.areas j →
      opts.minRadius ≤ anchorDistance P root
        (l.foldl (compactFoldStep P opts root leafIdxs) acc).1.areas j := by
  intro l
  induction l with
  | nil => exact fun acc h => h
  | cons c tl ih =>
    intro acc h
    rw [List.foldl_cons]
    exact ih _ (tryMoveCluster_dist P opts root leafIdxs hh hmr acc.1 c j h)

/-- The distance invariant survives one compaction pass. -/
theorem compactPass_dist (P : JsMathPrims) (opts : CompactOptions) (root : ℚ × ℚ)
    (leafIdxs : List (List ℕ))
    (hh : ∀ t a b : ℚ, 0 ≤ t → P.hypot (t * a) (t * b) = t * P.hypot a b)
    (hmr : 0 ≤ opts.minRadius) (st : CompactState) (j : ℕ)
    (h : opts.minRadius ≤ anchorDistance P root st.areas j) :
    opts.minRadius ≤ anchorDistance P root
      (compactPass P opts root leafIdxs st).1.areas j := by
  unfold compactPass
  exact compactFold_dist P opts root leafIdxs hh hmr j _ (st, false) h

/-- The distance invariant survives the whole compaction loop. -/
theorem compactLoop_dist (P : JsMathPrims) (opts : CompactOptions) (root : ℚ × ℚ)
    (leafIdxs : List (List ℕ))
    (hh : ∀ t a b : ℚ, 0 ≤ t → P.hypot (t * a) (t * b) = t * P.hypot a b)
    (hmr : 0 ≤ opts.minRadius) (j : ℕ) :
    ∀ (fuel : ℕ) (st : CompactState),
      opts.minRadius ≤ anchorDistance P root st.areas j →
      opts.minRadius ≤ anchorDistance P root
        (compactLoop P opts root leafIdxs fuel st).areas j := by
  intro fuel
  induction fuel with
  | zero => exact fun st h => h
  | succ n ih =>
    intro st h
    unfold compactLoop
    have hpass := compactPass_dist P opts root leafIdxs hh hmr st j h
    by_cases hmv : (compactPass P opts root leafIdxs st).2
    · rw [if_pos hmv]
      exact ih _ hpass
    · rw [if_neg hmv]
      exact hpass

/-- C8: cluster compaction never moves an area anchor strictly inside the
minimum radius: for a `hypot` primitive that is absolutely homogeneous (as
`Math.hypot` is) and a nonnegative `minRadius`, any cluster whose anchor is
at distance at least `minRadius` from the root stays at distance at least
`minRadius` after every compaction iteration (first conjunct: the loop from
any intermediate state) and after the whole `compactClustersTowardCore` run
(second conjunct): each applied move length is capped at
`distance - minRadius`, and clusters at distance at most `minRadius + 1` are
skipped. -/
theorem compaction_minRadius_invariant (P : JsMathPrims) (opts : CompactOptions)
    (root : ℚ × ℚ)
    (hh : ∀ t a b : ℚ, 0 ≤ t → P.hypot (t * a) (t * b) = t * P.hypot a b)
    (hmr : 0 ≤ opts.minRadius) :
    (∀ (leafIdxs : List (List ℕ)) (fuel : ℕ) (st : CompactState) (c : ℕ),
        opts.minRadius ≤ anchorDistance P root st.areas c →
        opts.minRadius ≤ anchorDistance P root
          (compactLoop P opts root leafIdxs fuel st).areas c) ∧
    (∀ (areas : List SkillArea) (leaves : List SkillLeaf) (c : ℕ),
        opts.minRadius ≤ anchorDistance P root areas c →
        opts.minRadius ≤ anchorDistance P root
          (compactClustersTowardCore P areas leaves root opts).1 c) := by
  constructor
  · intro leafIdxs fuel st c h
    exact compactLoop_dist P opts root leafIdxs hh hmr c fuel st h
  · intro areas leaves c h
    unfold compactClustersTowardCore
    split_ifs with h0
    · exact h
    · exact compactLoop_dist P opts root _ hh hmr c 320 _ h

/-- Witness for C8: the demo cluster starts 330px from the root and stays at
or beyond the 124px minimum radius through the full compaction. -/
theorem compaction_minRadius_invariant_witness :
    0 ≤ demoOpts.minRadius ∧
    demoOpts.minRadius ≤ anchorDistance demoPrims (860, 630) [demoArea] 0 ∧
    demoOpts.minRadius ≤ anchorDistance demoPrims (860, 630)
      (compactClustersTowardCore demoPrims [demoArea] [] (860, 630) demoOpts).1 0 := by
  refine ⟨by with_unfolding_all decide, by with_unfolding_all decide, ?_⟩
  refine (compaction_minRadius_invariant demoPrims demoOpts (860, 630) ?_
    (by with_unfolding_all decide)).2 [demoArea] [] 0 (by with_unfolding_all decide)
  intro t a b ht
  show |t * a| + |t * b| = t * (|a| + |b|)
  rw [abs_mul, abs_mul, abs_of_nonneg ht]
  ring

end Profile

namespace Profile

/-- A membership-wide property extends to `getD` reads. -/
theorem forall_mem_getD {α : Type} {Q : α → Prop} {l : List α} {d : α}
    (h : ∀ x ∈ l, Q x) (hd : Q d) (i : ℕ) : Q (l.getD i d) := by
  rcases lt_or_ge i l.length with hi | hi
  · rw [List.getD_eq_getElem?_getD, List.getElem?_eq_getElem hi]
    exact h _ (List.getElem_mem hi)
  · rw [List.getD_eq_getElem?_getD, List.getElem?_eq_none hi]
    exact hd

/-- A membership-wide property survives `List.set` with a good element. -/
theorem forall_mem_set {α : Type} {Q : α → Prop} {l : List α} {i : ℕ} {a : α}
    (h : ∀ x ∈ l, Q x) (ha : Q a) : ∀ x ∈ l.set i a, Q x := fun x hx =>
  (List.mem_or_eq_of_mem_set hx).elim (h x) (fun e => e ▸ ha)

/-- `shortenSkillLabel` never returns more than `maxLen` code units. -/
theorem shortenSkillLabel_length_le (text : List Char) (maxLen : ℕ)
    (hm : 1 ≤ maxLen) : (shortenSkillLabel text maxLen).length ≤ maxLen := by
  unfold shortenSkillLabel
  split_ifs with h
  · exact h
  · simp only [List.length_append, List.length_take, List.length_cons,
      List.length_nil]
    omega

/-- Overlap resolution only moves boxes: any per-leaf property preserved by
`updateLeafBox` holds of every output leaf. -/
theorem resolveLeafOverlap_forall (Q : SkillLeaf → Prop) (hQd : Q defaultLeaf)
    (hQu : ∀ y n, Q n → Q (updateLeafBox y n))
    (nodes : List SkillLeaf) (blockers : List (String × List QInterval))
    (maxShift : ℚ) (h : ∀ x ∈ nodes, Q x) :
    ∀ x ∈ resolveLeafOverlap nodes blockers maxShift, Q x := by
  unfold resolveLeafOverlap
  have main : ∀ (l : List (ℕ × SkillLeaf)) (acc : List SkillLeaf × List OccBox),
      (∀ x ∈ acc.1, Q x) →
      ∀ x ∈ (l.foldl (resolveLeafStep blockers maxShift) acc).1, Q x := by
    intro l
    induction l with
    | nil => exact fun acc h x hx => h x hx
    | cons p tl ih =>
      intro acc hacc
      rw [List.foldl_cons]
      apply ih
      intro x hx
      simp only [resolveLeafStep] at hx
      rcases List.mem_or_eq_of_mem_set hx with hmem | heq
      · exact hacc x hmem
      · exact heq ▸ hQu _ _ (forall_mem_getD hacc hQd p.1)
  exact main _ (nodes, []) h

/-- Translating leaves preserves any property preserved by `shiftLeaf`. -/
theorem shiftLeavesAt_forall (Q : SkillLeaf → Prop) (hQd : Q defaultLeaf)
    (hQs : ∀ dx dy n, Q n → Q (shiftLeaf dx dy n)) (dx dy : ℚ) :
    ∀ (idxs : List ℕ) (leaves : List SkillLeaf), (∀ x ∈ leaves, Q x) →
      ∀ x ∈ shiftLeavesAt leaves idxs dx dy, Q x := by
  intro idxs
  induction idxs with
  | nil => exact fun leaves h => h
  | cons i tl ih =>
    intro leaves h
    have hstep : ∀ x ∈ shiftLeafSetStep dx dy leaves i, Q x := by
      unfold shiftLeafSetStep
      exact forall_mem_set h (hQs dx dy _ (forall_mem_getD h hQd i))
    exact fun x hx => ih _ hstep x hx

/-- A compaction attempt preserves any leaf property preserved by `shiftLeaf`. -/
theorem tryMoveCluster_leaves_forall (Q : SkillLeaf → Prop) (hQd : Q defaultLeaf)
    (hQs : ∀ dx dy n, Q n → Q (shiftLeaf dx dy n))
    (P : JsMathPrims) (opts : CompactOptions) (root : ℚ × ℚ)
    (leafIdxs : List (List ℕ)) (st : CompactState) (c : ℕ)
    (h : ∀ x ∈ st.leaves, Q x) :
    ∀ x ∈ (tryMoveCluster P opts root leafIdxs st c).1.leaves, Q x := by
  simp only [tryMoveCluster]
  split_ifs
  · exact h
  · exact h
  · exact h
  · exact h
  · exact h
  · exact h
  exact shiftLeavesAt_forall Q hQd hQs _ _ _ _ h

/-- The compaction loop preserves any leaf property preserved by `shiftLeaf`. -/
theorem compactLoop_leaves_forall (Q : SkillLeaf → Prop) (hQd : Q defaultLeaf)
    (hQs : ∀ dx dy n, Q n → Q (shiftLeaf dx dy n))
    (P : JsMathPrims) (opts : CompactOptions) (root : ℚ × ℚ)
    (leafIdxs : List (List ℕ)) :
    ∀ (fuel : ℕ) (st : CompactState), (∀ x ∈ st.leaves, Q x) →
      ∀ x ∈ (compactLoop P opts root leafIdxs fuel st).leaves, Q x := by
  have hfold : ∀ (l : List ℕ) (acc : CompactState × Bool),
      (∀ x ∈ acc.1.leaves, Q x) →
      ∀ x ∈ (l.foldl (compactFoldStep P opts root leafIdxs) acc).1.leaves, Q x := by
    intro l
    induction l with
    | nil => exact fun acc h => h
    | cons c tl ih =>
      intro acc h
      rw [List.foldl_cons]
      exact ih _ (tryMoveCluster_leaves_forall Q hQd hQs P opts root leafIdxs acc.1 c h)
  intro fuel
  induction fuel with
  | zero => exact fun st h => h
  | succ n ih =>
    intro st h
    unfold compactLoop
    by_cases hmv : (compactPass P opts root leafIdxs st).2
    · rw [if_pos hmv]
      exact ih _ (by unfold compactPass; exact hfold _ (st, false) h)
    · rw [if_neg hmv]
      unfold compactPass
      exact hfold _ (st, false) h

/-- `compactClustersTowardCore` preserves any leaf property preserved by
`shiftLeaf`. -/
theorem compactClustersTowardCore_leaves_forall (Q : SkillLeaf → Prop)
    (hQd : Q defaultLeaf) (hQs : ∀ dx dy n, Q n → Q (shiftLeaf dx dy n))
    (P : JsMathPrims) (areas : List SkillArea) (leaves : List SkillLeaf)
    (root : ℚ × ℚ) (opts : CompactOptions) (h : ∀ x ∈ leaves, Q x) :
    ∀ x ∈ (compactClustersTowardCore P areas leaves root opts).2, Q x := by
  unfold compactClustersTowardCore
  split_ifs with h0
  · exact h
  · exact compactLoop_leaves_forall Q hQd hQs P opts root _ 320 _ h

/-- `shiftAreaClusterY` preserves any leaf property preserved by `shiftLeafY`. -/
theorem shiftAreaClusterY_leaves_forall (Q : SkillLeaf → Prop)
    (hQd : Q defaultLeaf) (hQy : ∀ a n, Q n → Q (shiftLeafY a n))
    (areas : List SkillArea) (leaves : List SkillLeaf) (laneIdxs : List ℕ)
    (i : ℕ) (deltaY : ℚ) (root : ℚ × ℚ) (opts : SeparateOptions)
    (h : ∀ x ∈ leaves, Q x) :
    ∀ x ∈ (shiftAreaClusterY areas leaves laneIdxs i deltaY root opts).1.2, Q x := by
  have hfold : ∀ (a : ℚ) (l : List ℕ) (ls : List SkillLeaf), (∀ x ∈ ls, Q x) →
      ∀ x ∈ l.foldl (shiftLeafYSetStep a) ls, Q x := by
    intro a l
    induction l with
    | nil => exact fun ls h => h
    | cons j tl ih =>
      intro ls h
      rw [List.foldl_cons]
      refine ih _ ?_
      unfold shiftLeafYSetStep
      exact forall_mem_set h (hQy _ _ (forall_mem_getD h hQd j))
  simp only [shiftAreaClusterY]
  split_ifs
  all_goals try exact h
  all_goals exact hfold _ laneIdxs leaves h

/-- The separation loop preserves any leaf property preserved by `shiftLeafY`. -/
theorem separateLoop_leaves_forall (Q : SkillLeaf → Prop)
    (hQd : Q defaultLeaf) (hQy : ∀ a n, Q n → Q (shiftLeafY a n))
    (root : ℚ × ℚ) (opts : SeparateOptions) (laneIdxsOf : List (List ℕ)) :
    ∀ (fuel : ℕ) (st : List SkillArea × List SkillLeaf), (∀ x ∈ st.2, Q x) →
      ∀ x ∈ (separateLoop root opts laneIdxsOf fuel st).2, Q x := by
  have hpair : ∀ (st : List SkillArea × List SkillLeaf) (i j : ℕ),
      (∀ x ∈ st.2, Q x) →
      ∀ x ∈ (separatePairStep root opts laneIdxsOf st i j).1.2, Q x := by
    intro st i j h
    simp only [separatePairStep]
    split_ifs
    all_goals try exact h
    all_goals dsimp only
    all_goals apply shiftAreaClusterY_leaves_forall Q hQd hQy
    all_goals exact shiftAreaClusterY_leaves_forall Q hQd hQy _ _ _ _ _ _ _ h
  have hfold : ∀ (l : List (ℕ × ℕ)) (acc : (List SkillArea × List SkillLeaf) × Bool),
      (∀ x ∈ acc.1.2, Q x) →
      ∀ x ∈ (l.foldl (separateFoldStep root opts laneIdxsOf) acc).1.2, Q x := by
    intro l
    induction l with
    | nil => exact fun acc h => h
    | cons p tl ih =>
      intro acc h
      rw [List.foldl_cons]
      exact ih _ (hpair acc.1 p.1 p.2 h)
  intro fuel
  induction fuel with
  | zero => exact fun st h => h
  | succ n ih =>
    intro st h
    unfold separateLoop
    by_cases hmv : (separatePass root opts laneIdxsOf st).2
    · rw [if_pos hmv]
      exact ih _ (by unfold separatePass; exact hfold _ (st, false) h)
    · rw [if_neg hmv]
      unfold separatePass
      exact hfold _ (st, false) h

/-- `separateAreaNodes` preserves any leaf property preserved by `shiftLeafY`. -/
theorem separateAreaNodes_leaves_forall (Q : SkillLeaf → Prop)
    (hQd : Q defaultLeaf) (hQy : ∀ a n, Q n → Q (shiftLeafY a n))
    (areas : List SkillArea) (leaves : List SkillLeaf) (root : ℚ × ℚ)
    (opts : SeparateOptions) (h : ∀ x ∈ leaves, Q x) :
    ∀ x ∈ (separateAreaNodes areas leaves root opts).2, Q x := by
  unfold separateAreaNodes
  split_ifs with h0
  · exact h
  · exact separateLoop_leaves_forall Q hQd hQy root opts _ 64 _ h

/-- Every leaf the upper-zone group loop pushes is built by `mkSkillLeaf`. -/
theorem zoneFoldUpper_topics_forall (Q : SkillLeaf → Prop)
    (hQmk : ∀ zone key so bx ay sd col bt bb ti task,
      Q (mkSkillLeaf zone key so bx ay sd col bt bb ti task))
    (P : JsMathPrims) (rootX rootY : ℚ) (angles : List ℚ) :
    ∀ (l : List (ℕ × RoadmapGroup)) (acc : ZoneBuildAcc),
      (∀ x ∈ acc.topics, Q x) →
      ∀ x ∈ (l.foldl (upperGroupStep P rootX rootY angles) acc).topics, Q x := by
  intro l
  induction l with
  | nil => exact fun acc h => h
  | cons p tl ih =>
    intro acc h
    rw [List.foldl_cons]
    refine ih _ ?_
    intro x hx
    simp only [upperGroupStep] at hx
    rcases List.mem_append.mp hx with hmem | hmem
    · exact h x hmem
    · obtain ⟨t, -, rfl⟩ := List.mem_map.mp hmem
      exact hQmk _ _ _ _ _ _ _ _ _ _ _

/-- Every leaf the root-zone group loop pushes is built by `mkSkillLeaf`. -/
theorem zoneFoldLower_topics_forall (Q : SkillLeaf → Prop)
    (hQmk : ∀ zone key so bx ay sd col bt bb ti task,
      Q (mkSkillLeaf zone key so bx ay sd col bt bb ti task))
    (P : JsMathPrims) (rootX rootY : ℚ) (angles : List ℚ) (lc uc : ℕ) :
    ∀ (l : List (ℕ × RoadmapGroup)) (acc : ZoneBuildAcc),
      (∀ x ∈ acc.topics, Q x) →
      ∀ x ∈ (l.foldl (lowerGroupStep P rootX rootY angles lc uc) acc).topics, Q x := by
  intro l
  induction l with
  | nil => exact fun acc h => h
  | cons p tl ih =>
    intro acc h
    rw [List.foldl_cons]
    refine ih _ ?_
    intro x hx
    simp only [lowerGroupStep] at hx
    rcases List.mem_append.mp hx with hmem | hmem
    · exact h x hmem
    · obtain ⟨t, -, rfl⟩ := List.mem_map.mp hmem
      exact hQmk _ _ _ _ _ _ _ _ _ _ _


/-- C9: every topic's displayed label (`displayTopic`) is at most 40
characters across the whole layout pipeline; `shortenSkillLabel` returns its
input unchanged when the length is at most `max`, and otherwise returns a
string of exactly `max` characters ending in an ellipsis character. -/
theorem shortenSkillLabel_spec :
    (∀ (text : List Char) (maxLen : ℕ), text.length ≤ maxLen →
        shortenSkillLabel text maxLen = text) ∧
    (∀ (text : List Char) (maxLen : ℕ), 1 ≤ maxLen → maxLen < text.length →
        (shortenSkillLabel text maxLen).length = maxLen ∧
        (shortenSkillLabel text maxLen).getLast? = some '…') ∧
    (∀ (P : JsMathPrims) (groups : List RoadmapGroup) (leaf : SkillLeaf),
        leaf ∈ (buildRoadmapSkillTreeLayout P groups).topics ∨
        leaf ∈ (buildRoadmapSkillTreeLayout P groups).rootTopics →
        leaf.displayTopic.length ≤ 40) := by
  have hQd : defaultLeaf.displayTopic.length ≤ 40 := by norm_num [defaultLeaf]
  have hQmk : ∀ zone key so bx ay sd col bt bb ti task,
      (mkSkillLeaf zone key so bx ay sd col bt bb ti task).displayTopic.length ≤ 40 := by
    intro zone key so bx ay sd col bt bb ti task
    show (String.mk (shortenSkillLabel task.topic.data 40)).length ≤ 40
    show (shortenSkillLabel task.topic.data 40).length ≤ 40
    exact shortenSkillLabel_length_le _ 40 (by norm_num)
  refine ⟨?_, ?_, ?_⟩
  · intro text maxLen h
    unfold shortenSkillLabel
    rw [if_pos h]
  · intro text maxLen h1 h2
    unfold shortenSkillLabel
    rw [if_neg (not_le.mpr h2)]
    constructor
    · simp only [List.length_append, List.length_take, List.length_cons,
        List.length_nil]
      omega
    · exact List.getLast?_concat _
  · intro P groups leaf hor
    rcases hor with hmem | hmem
    · unfold buildRoadmapSkillTreeLayout at hmem
      dsimp only at hmem
      refine resolveLeafOverlap_forall (fun n => n.displayTopic.length ≤ 40) hQd
        (fun _ _ h => h) _ _ _ ?_ leaf hmem
      refine separateAreaNodes_leaves_forall _ hQd (fun _ _ h => h) _ _ _ _ ?_
      refine compactClustersTowardCore_leaves_forall _ hQd (fun _ _ _ h => h) _ _ _ _ _ ?_
      refine resolveLeafOverlap_forall _ hQd (fun _ _ h => h) _ _ _ ?_
      exact zoneFoldUpper_topics_forall _
        (fun zone key so bx ay sd col bt bb ti task => hQmk zone key so bx ay sd col bt bb ti task)
        _ _ _ _ _ _ (fun x hx => absurd hx (List.not_mem_nil x))
    · unfold buildRoadmapSkillTreeLayout at hmem
      dsimp only at hmem
      refine resolveLeafOverlap_forall (fun n => n.displayTopic.length ≤ 40) hQd
        (fun _ _ h => h) _ _ _ ?_ leaf hmem
      refine separateAreaNodes_leaves_forall _ hQd (fun _ _ h => h) _ _ _ _ ?_
      refine compactClustersTowardCore_leaves_forall _ hQd (fun _ _ _ h => h) _ _ _ _ _ ?_
      refine resolveLeafOverlap_forall _ hQd (fun _ _ h => h) _ _ _ ?_
      exact zoneFoldLower_topics_forall _
        (fun zone key so bx ay sd col bt bb ti task => hQmk zone key so bx ay sd col bt bb ti task)
        _ _ _ _ _ _ _ _ (fun x hx => absurd hx (List.not_mem_nil x))


set_option maxRecDepth 40000 in
/-- Witness for C9: concrete labels, and the single leaf of the demo layout. -/
theorem shortenSkillLabel_spec_witness :
    (['P', 'r', 'o'] : List Char).length ≤ 40 ∧
    shortenSkillLabel ['P', 'r', 'o'] 40 = ['P', 'r', 'o'] ∧
    (1 ≤ 3 ∧ 3 < (['a', 'b', 'c', 'd'] : List Char).length) ∧
    (shortenSkillLabel ['a', 'b', 'c', 'd'] 3).length = 3 ∧
    (shortenSkillLabel ['a', 'b', 'c', 'd'] 3).getLast? = some '…' ∧
    ((buildRoadmapSkillTreeLayout demoPrims demoGroups).topics.getD 0 defaultLeaf ∈
        (buildRoadmapSkillTreeLayout demoPrims demoGroups).topics ∨
      (buildRoadmapSkillTreeLayout demoPrims demoGroups).topics.getD 0 defaultLeaf ∈
        (buildRoadmapSkillTreeLayout demoPrims demoGroups).rootTopics) ∧
    ((buildRoadmapSkillTreeLayout demoPrims demoGroups).topics.getD 0
        defaultLeaf).displayTopic.length ≤ 40 :=
  ⟨by decide, shortenSkillLabel_spec.1 _ _ (by decide),
   ⟨by norm_num, by decide⟩,
   (shortenSkillLabel_spec.2.1 _ _ (by norm_num) (by decide)).1,
   (shortenSkillLabel_spec.2.1 _ _ (by norm_num) (by decide)).2,
   Or.inl (by with_unfolding_all decide),
   shortenSkillLabel_spec.2.2 demoPrims demoGroups _
     (Or.inl (by with_unfolding_all decide))⟩

end Profile
